import Mathlib

/-!
# Verification of the `negotiator` simulation orchestrator

Shallow embedding of the simulation subsystem of the `negotiator` repository
(`src/prototype/src/backend/app/simulation/engine.py` together with
`app/agents/base.py` and `app/agents/counterparty.py`), and proofs of the
frozen claims about it.

Modelling conventions:
* Python `int` is modelled as `Int` (arbitrary precision in both).
* Python `float` values flowing through the fallback outcome evaluator are
  modelled as `ℚ`; the evaluator only parses decimal literals and compares
  them, and all comparisons used are order comparisons.
* The `asyncio` lock inside `QuestionBudget.reserve` serialises the critical
  section, so `reserve` is modelled as a pure transition on the budget
  state; the returned `lockTaken` flag records whether the code path entered
  the `async with self._lock` block.
* Agent calls are suspension points whose outputs are supplied externally;
  within one run they happen sequentially, so they are modelled as an
  oracle (`Script`) indexed by turn number.
* `uuid.uuid4()` results are modelled as identifiers supplied by the
  engine context (`EngineCtx`).
* Trace entries are append-only audit records that the engine never reads
  back; they are modelled by the calling agent's name, which suffices to
  track their count, order, and restoration across pause/resume.

The file is organised as: all definitions first, then all theorems.
-/

namespace Negotiator

/-- `app.core.models.Outcome` (a `str` enum with values PASS/FAIL/NEUTRAL). -/
inductive Outcome
  | PASS
  | FAIL
  | NEUTRAL
deriving DecidableEq

/-- `app.core.models.IssueDirection`. -/
inductive IssueDirection
  | MINIMIZE
  | MAXIMIZE
deriving DecidableEq

/-- `app.core.models.RunStatus`. -/
inductive RunStatus
  | COMPLETED
  | PAUSED
deriving DecidableEq

/-- `app.core.models.ObjectiveType`. -/
inductive ObjectiveType
  | OFFER_VECTOR
  | SINGLE_VALUE
deriving DecidableEq

/-- The speaker tags `"USER"` / `"COUNTERPARTY"` used in conversation
messages and `Turn.speaker`. -/
inductive Speaker
  | USER
  | COUNTERPARTY
deriving DecidableEq

/-! ## QuestionBudget (`engine.py` lines 30-43) -/

/-- State of `QuestionBudget`: the two integer fields.  The `asyncio.Lock`
is not part of the observable state (it is never held across turns). -/
structure QuestionBudget where
  max_questions : Int
  used : Int
deriving DecidableEq

/-- `QuestionBudget.__init__`: `max_questions = max(0, int(max_questions))
if max_questions is not None else 0` and `used = max(0, int(used))`.
Note that `used` is clamped below by 0 but is *not* clamped above by
`max_questions`. -/
def QuestionBudget.init (maxQuestions : Option Int) (used : Int) : QuestionBudget :=
  { max_questions :=
      match maxQuestions with
      | some m => max 0 m
      | none => 0
  , used := max 0 used }

/-- Result of one `reserve()` call: the boolean return value, the budget
state afterwards, and whether the lock was acquired on that path. -/
structure ReserveResult where
  ok : Bool
  state : QuestionBudget
  lockTaken : Bool
deriving DecidableEq

/-- `QuestionBudget.reserve` (`engine.py` lines 36-43):
fast-path `False` when `max_questions <= 0` without taking the lock;
otherwise, under the lock, `False` if `used >= max_questions`, else
increment `used` and return `True`. -/
def QuestionBudget.reserve (b : QuestionBudget) : ReserveResult :=
  if b.max_questions ≤ 0 then
    ⟨false, b, false⟩
  else if b.max_questions ≤ b.used then
    ⟨false, b, true⟩
  else
    ⟨true, { b with used := b.used + 1 }, true⟩

/-- `n` successive `reserve()` calls against a budget; returns the final
state and how many calls returned `True`. -/
def QuestionBudget.reserveMany (b : QuestionBudget) : Nat → QuestionBudget × Nat
  | 0 => (b, 0)
  | n + 1 =>
    let r := b.reserve
    let p := r.state.reserveMany n
    (p.1, (if r.ok then 1 else 0) + p.2)

/-! ## Numeric extraction and the fallback outcome evaluator
(`engine.py` `_extract_numbers`, `_to_float`, `_extract_offer_value`,
`_evaluate_outcome`, `_desired_values`, `_primary_issue_id`) -/

/-- A Python scalar value as it can appear in objective values: a number,
a string, or `None`.  (Only these reach `_to_float`, which stringifies its
argument; numbers are modelled as `ℚ`.) -/
inductive PyScalar
  | num (q : ℚ)
  | str (s : String)
  | pynone
deriving DecidableEq

/-- A Python objective `value`: a scalar or a dict keyed by issue id
(`OFFER_VECTOR` objectives). -/
inductive PyVal
  | scalar (v : PyScalar)
  | vdict (entries : List (String × PyScalar))
deriving DecidableEq

/-- Numeric value of a run of decimal digits. -/
def digitsToNat (ds : List Char) : Nat :=
  ds.foldl (fun a c => a * 10 + (c.toNat - 48)) 0

/-- Parse of `float(s)` for the comma-free strings the engine feeds it:
optional sign, an integer part and/or a `.`-separated fractional part, and
nothing else.  Returns `none` where Python `float` raises. -/
def parseFloatChars (cs : List Char) : Option ℚ :=
  let sp : Int × List Char :=
    match cs with
    | '+' :: r => (1, r)
    | '-' :: r => (-1, r)
    | r => (1, r)
  let ipp := sp.2.span Char.isDigit
  match ipp.2 with
  | [] =>
    if ipp.1.isEmpty then none
    else some (mkRat (sp.1 * (digitsToNat ipp.1 : Int)) 1)
  | '.' :: r2 =>
    let fpp := r2.span Char.isDigit
    if fpp.2.isEmpty && !(ipp.1.isEmpty && fpp.1.isEmpty) then
      some (mkRat
        (sp.1 * ((digitsToNat ipp.1 * 10 ^ fpp.1.length + digitsToNat fpp.1 : Nat) : Int))
        (10 ^ fpp.1.length))
    else none
  | _ => none

/-- `_to_float` applied to a string: strip commas
(`str.replace(",", "")` removes every comma), then `float(...)`, with
`None` for the empty string or a parse failure. -/
def to_float_str (s : String) : Option ℚ :=
  if s = "" then none else parseFloatChars (s.data.filter (fun c => c ≠ ','))

/-- `_to_float` applied to a scalar objective value. -/
def to_float_scalar : PyScalar → Option ℚ
  | .num q => some q
  | .str s => to_float_str s
  | .pynone => none

/-- `_to_float` applied to a full objective value (`float(str(dict))`
always raises, so dicts give `None`). -/
def to_float_py : PyVal → Option ℚ
  | .scalar v => to_float_scalar v
  | .vdict _ => none

/-- Greedy run of `[\d,]*`. -/
def numSpan (cs : List Char) : List Char × List Char :=
  cs.span (fun c => c.isDigit || c == ',')

/-- Optional `(?:\.\d+)?`: a dot followed by at least one digit. -/
def fracSpan : List Char → List Char × List Char
  | '.' :: rest =>
    match rest.span Char.isDigit with
    | (d :: ds, r) => ('.' :: d :: ds, r)
    | ([], _) => ([], '.' :: rest)
  | cs => ([], cs)

/-- Left-to-right non-overlapping scan of `re.findall` for the pattern
`[-+]?\d[\d,]*(?:\.\d+)?`: a match starts at a digit, or at a sign
directly followed by a digit; otherwise the scan advances one character.
The fuel argument (instantiated with the text length) only discharges
termination; every step consumes at least one character. -/
def scanTokens : Nat → List Char → List String
  | 0, _ => []
  | _ + 1, [] => []
  | fuel + 1, c :: cs =>
    if c.isDigit then
      let ip := numSpan (c :: cs)
      let fp := fracSpan ip.2
      String.mk (ip.1 ++ fp.1) :: scanTokens fuel fp.2
    else if (c == '+' || c == '-') && (match cs with | d :: _ => d.isDigit | [] => false) then
      let ip := numSpan cs
      let fp := fracSpan ip.2
      String.mk (c :: (ip.1 ++ fp.1)) :: scanTokens fuel fp.2
    else
      scanTokens fuel cs

/-- `re.findall(r"[-+]?\d[\d,]*(?:\.\d+)?", text)`. -/
def findNumericTokens (s : String) : List String :=
  scanTokens s.data.length s.data

/-- `_extract_numbers`: every token that `_to_float` can parse. -/
def extract_numbers (text : String) : List ℚ :=
  (findNumericTokens text).filterMap to_float_str

/-- `_extract_offer_value`: `None` when no number was found, otherwise
Python `min`/`max` of the list (a fold of the binary min/max over the
tail, starting from the head). -/
def extract_offer_value (text : String) (dir : IssueDirection) : Option ℚ :=
  match extract_numbers text with
  | [] => none
  | n :: ns => some (if dir = .MINIMIZE then ns.foldl min n else ns.foldl max n)

/-- The decision table of `_evaluate_outcome` once the offer value and the
desired values are known (`engine.py` lines 612-627). -/
def evaluate_outcome_text (text : String) (target reservation : Option ℚ)
    (dir : IssueDirection) : Outcome :=
  match extract_offer_value text dir, target with
  | none, _ => .NEUTRAL
  | _, none => .NEUTRAL
  | some offer, some t =>
    if dir = .MINIMIZE then
      if offer ≤ t then .PASS
      else
        match reservation with
        | some r => if offer ≤ r then .NEUTRAL else .FAIL
        | none => .FAIL
    else
      if t ≤ offer then .PASS
      else
        match reservation with
        | some r => if r ≤ offer then .NEUTRAL else .FAIL
        | none => .FAIL

/-- One conversation message: `{"speaker": ..., "text": ...}`. -/
structure Msg where
  speaker : Speaker
  text : String
deriving DecidableEq

/-- The latest counterparty utterance, `""` if there is none. -/
def latest_counterparty_text (conv : List Msg) : String :=
  (((conv.reverse.find? (fun m => m.speaker = .COUNTERPARTY)).map Msg.text)).getD ""

/-- `app.core.models.Issue`, restricted to the fields the engine logic
reads (`issue_id` and `direction`; `name`/`type`/`unit`/`bounds` are used
only to render prompt text and carry no engine behaviour). -/
structure Issue where
  issue_id : String
  direction : IssueDirection
deriving DecidableEq

/-- `app.core.models.ObjectiveValue`. -/
structure ObjectiveValue where
  type : ObjectiveType
  value : PyVal
deriving DecidableEq

/-- `app.core.models.Objectives` (without `no_deal_acceptable`, which the
engine never reads). -/
structure Objectives where
  target : ObjectiveValue
  reservation : ObjectiveValue
  issue_weights : List (String × ℚ)
deriving DecidableEq

/-- `app.core.models.CaseSnapshot`, restricted to the fields the
simulation engine's control flow reads.  The remaining fields (topic,
domain, channel, parameters, counterparty assumptions, clarifications,
...) only feed prompt text rendered for the agents. -/
structure CaseSnapshot where
  case_id : String
  objectives : Objectives
  issues : Option (List Issue)
  user_issues : Option (List Issue)
  counterparty_issues : Option (List Issue)
deriving DecidableEq

/-- Python truthiness chain `a or b` on optional lists: an absent or empty
list falls through. -/
def orNonempty (a : Option (List Issue)) (b : List Issue) : List Issue :=
  match a with
  | some l => if l.isEmpty then b else l
  | none => b

/-- `_issues_for_user`: `list(case.user_issues or case.issues or [])`. -/
def issues_for_user (c : CaseSnapshot) : List Issue :=
  orNonempty c.user_issues (orNonempty c.issues [])

/-- `weights.get(issue_id, 0.0)`. -/
def weightOf (ws : List (String × ℚ)) (issueId : String) : ℚ :=
  (ws.lookup issueId).getD 0

/-- The head of `sorted(issues, key=weight, reverse=True)`: Python's sort
is stable, so element 0 of the descending sort is the leftmost issue of
maximal weight; the fold keeps the current best and replaces it only on a
strictly greater weight. -/
def primaryIssue (c : CaseSnapshot) : Option Issue :=
  match issues_for_user c with
  | [] => none
  | i :: rest =>
    some (rest.foldl
      (fun best j =>
        if weightOf c.objectives.issue_weights best.issue_id
            < weightOf c.objectives.issue_weights j.issue_id then j else best) i)

/-- `_primary_issue_id`. -/
def primary_issue_id (c : CaseSnapshot) : Option String :=
  (primaryIssue c).map Issue.issue_id

/-- Resolve one objective the way `_desired_values` does: a
`SINGLE_VALUE` objective is `_to_float` of its value; an `OFFER_VECTOR`
objective whose value is a dict is `_to_float` of the entry keyed by the
primary issue id (`dict.get` of a missing or `None` key gives `None`). -/
def desired_of (c : CaseSnapshot) (obj : ObjectiveValue) : Option ℚ :=
  if obj.type = .SINGLE_VALUE then to_float_py obj.value
  else
    match obj.value with
    | .vdict es =>
      match primary_issue_id c with
      | some k =>
        match es.lookup k with
        | some s => to_float_scalar s
        | none => none
      | none => none
    | .scalar _ => none

/-- `_desired_values`: target, reservation, and the direction of the
*first* user issue (`issues[0].direction if issues else MAXIMIZE`). -/
def desired_values (c : CaseSnapshot) : Option ℚ × Option ℚ × IssueDirection :=
  let issues := issues_for_user c
  let direction := match issues with
    | [] => IssueDirection.MAXIMIZE
    | i :: _ => i.direction
  (desired_of c c.objectives.target, desired_of c c.objectives.reservation, direction)

/-- `_evaluate_outcome`: `NEUTRAL` on an empty conversation, otherwise the
decision table applied to the latest counterparty utterance and the
desired values. -/
def evaluate_outcome (c : CaseSnapshot) (conv : List Msg) : Outcome :=
  if conv.isEmpty then .NEUTRAL
  else
    evaluate_outcome_text (latest_counterparty_text conv)
      (desired_values c).1 (desired_values c).2.1 (desired_values c).2.2

/-- "At or past the target in the user's favor". -/
def offerSatisfiesB (v t : ℚ) (dir : IssueDirection) : Bool :=
  match dir with
  | .MINIMIZE => v ≤ t
  | .MAXIMIZE => t ≤ v

/-- Modelled from the spec's words (§4.3): extract all numeric tokens,
pick the minimum for MINIMIZE and the maximum for MAXIMIZE, NEUTRAL when
no number is found or no target is configured, PASS when the value
satisfies the target, NEUTRAL when it only satisfies the reservation
floor, FAIL otherwise. -/
def specFallbackOutcome (text : String) (target reservation : Option ℚ)
    (dir : IssueDirection) : Outcome :=
  let numbers := extract_numbers text
  let binding := match dir with
    | .MINIMIZE => numbers.min?
    | .MAXIMIZE => numbers.max?
  match binding, target with
  | none, _ => .NEUTRAL
  | _, none => .NEUTRAL
  | some v, some t =>
    if offerSatisfiesB v t dir then .PASS
    else if (reservation.map (fun r => offerSatisfiesB v r dir)).getD false then .NEUTRAL
    else .FAIL

/-! ## Turn engine data model (`engine.py` `_run_single` and friends) -/

/-- One strategy suggestion dict built by `_strategy_suggestions`. -/
structure Suggestion where
  strategy_id : String
  name : String
  summary : String
  category : Option String
  goal : Option String
deriving DecidableEq

/-- The `payload` dict of an action; the engine only ever reads its
`question` key.  A non-dict payload is modelled as the empty payload the
code substitutes for it. -/
structure ActionPayload where
  question : Option String
deriving DecidableEq

/-- An action dict `{"type": ..., "payload": ...}`.  `type` is the raw
value before normalization (an `ActionType` enum member is represented by
its string value, which is what normalization returns for it). -/
structure ActionObj where
  type : Option String
  payload : Option ActionPayload
deriving DecidableEq

/-- The part of an agent call result the turn loop reads: the returned
message text and the `action` / `used_strategies` keys of its (always
dict-shaped) `parsed_output`. -/
structure CallModel where
  text : String
  action : Option ActionObj
  used_strategies : Option (List String)
deriving DecidableEq

/-- External agent responses for one turn index: the speaking agent's
call for that turn, and the arbiter verdict consulted on counterparty
turns (`None` when the world agent yields no usable outcome). -/
structure TurnScript where
  call : CallModel
  world : Option Outcome
deriving DecidableEq

/-- The oracle of agent responses, indexed by turn number. -/
abbrev Script := Nat → TurnScript

/-- `app.core.models.Turn`. -/
structure Turn where
  turn_index : Nat
  speaker : Speaker
  message_text : String
  conversation : List Msg
  outcome : Outcome
  strategy_suggestions : List Suggestion
  used_strategies : Option (List String)
  action : ActionObj
deriving DecidableEq

/-- The local mutable state of one `_run_single` invocation, except for
the `agent_call_traces` list, which is threaded separately through the
loop (the engine only ever appends to it and never reads it back, and
keeping it apart lets the proofs state that it influences nothing). -/
structure EngineState where
  conversation : List Msg
  turns : List Turn
  latest_outcome : Outcome
  round_user_turn_index : Option Nat
deriving DecidableEq

/-- The `pause_state` dict captured when a run pauses for a question
(pause-site code in `_run_single`): the serialized turns round-trip
through `model_to_dict`/`Turn(**...)` unchanged. -/
structure PauseState where
  conversation : List Msg
  turns : List Turn
  agent_call_traces : List String
  latest_outcome : Outcome
  round_user_turn_index : Option Nat
  next_turn_index : Nat
  strategy_suggestions : List Suggestion
deriving DecidableEq

/-- The `pending_question` dict returned with a paused result. -/
structure PendingQuestion where
  question : String
  asked_by : Speaker
  turn_index : Nat
  session_id : String
  run_id : String
deriving DecidableEq

/-- `app.core.models.SimulationRun` (the persisted Run record). -/
structure SimulationRun where
  run_id : String
  case_id : String
  seed : Int
  persona_id : String
  turns : List Turn
  outcome : Outcome
  user_utility : ℚ
  summary : Option String
  status : RunStatus
  session_id : String
  pending_question_id : Option String
  max_turns : Nat
  max_questions : Int
deriving DecidableEq

/-- The `trace_bundle` dict (its `run_trace` plus the agent call traces;
`turn_traces` duplicates the run's turns and is omitted). -/
structure TraceBundle where
  seed : Int
  session_id : String
  max_questions : Int
  strategy_suggestions : List Suggestion
  pause_state : Option PauseState
  agent_call_traces : List String
deriving DecidableEq

/-- `SimulationResult`. -/
structure SimulationResult where
  run : SimulationRun
  trace_bundle : TraceBundle
  pending_question : Option PendingQuestion
deriving DecidableEq

/-- Engine-instance context: the deterministic strategy sampler
(`_strategy_suggestions`, a function of the seed for a fixed registry),
the world agent's completion-time summary, and the fresh uuids the engine
would mint. -/
structure EngineCtx where
  regen : Int → List Suggestion
  world_summary : Option String
  fresh_run_id : String
  fresh_session_id : String

/-- Python `str.strip()` (ASCII whitespace suffices for the strings the
engine handles). -/
def trimChars (cs : List Char) : List Char :=
  ((cs.dropWhile Char.isWhitespace).reverse.dropWhile Char.isWhitespace).reverse

/-- Python `str.strip()` on a string. -/
def pyStrip (s : String) : String :=
  String.mk (trimChars s.data)

/-- `text.split(".")[-1]`: the segment after the last dot (the whole
text when there is no dot). -/
def afterLastDot (cs : List Char) : List Char :=
  ((cs.reverse.takeWhile (fun c => c ≠ '.')).reverse)

/-- `_normalize_action_type`: strip, take the part after the last `.`,
upper-case.  `None` normalizes to `""`; an `ActionType` enum member is
represented by its value string, for which normalization is the
identity. -/
def normalize_action_type : Option String → String
  | none => ""
  | some s =>
    String.mk ((afterLastDot (trimChars s.data)).map Char.toUpper)

/-- `_extract_action`: the normalized type, the payload (empty when not a
dict), and the raw action dict (empty when not a dict). -/
def extract_action (call : CallModel) : String × ActionPayload × ActionObj :=
  let action := call.action.getD ⟨none, none⟩
  (normalize_action_type action.type, action.payload.getD ⟨none⟩, action)

/-- `_extract_question_text`: the stripped payload question if non-empty,
else the stripped message text. -/
def extract_question_text (message_text : String) (payload : ActionPayload) : String :=
  let q := pyStrip (payload.question.getD "")
  if q = "" then pyStrip message_text else q

/-- `_utility_from_outcome` (`0.5` written as the exact rational). -/
def utility_from_outcome : Outcome → ℚ
  | .PASS => 1
  | .FAIL => 0
  | .NEUTRAL => mkRat 1 2

/-- `turns[j].outcome = o` (a no-op out of range; in every reachable
state the recorded index is in range). -/
def setTurnOutcome : List Turn → Nat → Outcome → List Turn
  | [], _, _ => []
  | t :: rest, 0, o => { t with outcome := o } :: rest
  | t :: rest, j + 1, o => t :: setTurnOutcome rest j o

/-- The action dict written by `_override_action`:
`{"type": <default>, "payload": {}}`. -/
def overriddenAction (ty : String) : ActionObj :=
  ⟨some ty, some ⟨none⟩⟩

/-- Append a user turn (the non-pausing tail of the odd-turn branch):
extend the conversation, append the `Turn`, and point
`round_user_turn_index` at the new turn. -/
def appendUserTurn (sugg : List Suggestion) (i : Nat) (call : CallModel)
    (action : ActionObj) (st : EngineState) : EngineState :=
  let conv := st.conversation ++ [⟨.USER, call.text⟩]
  { conversation := conv
  , turns := st.turns ++
      [⟨i, .USER, call.text, conv, st.latest_outcome, sugg, call.used_strategies, action⟩]
  , latest_outcome := st.latest_outcome
  , round_user_turn_index := some st.turns.length }

/-- The non-pausing tail of the even-turn branch: extend the
conversation, consult the arbiter (falling back to the outcome
evaluator), backfill the pending user-turn slot, append the counterparty
`Turn` with the resolved outcome, and clear the slot. -/
def appendCounterTurn (c : CaseSnapshot) (sugg : List Suggestion) (i : Nat)
    (call : CallModel) (world : Option Outcome) (action : ActionObj)
    (st : EngineState) : EngineState :=
  let conv := st.conversation ++ [⟨.COUNTERPARTY, call.text⟩]
  let latest := world.getD (evaluate_outcome c conv)
  let backfilled :=
    match st.round_user_turn_index with
    | some j => setTurnOutcome st.turns j latest
    | none => st.turns
  { conversation := conv
  , turns := backfilled ++
      [⟨i, .COUNTERPARTY, call.text, conv, latest, sugg, call.used_strategies, action⟩]
  , latest_outcome := latest
  , round_user_turn_index := none }

/-- Result of processing one turn index.  `tr` is the list of trace
entries the step appends (named by the agent called). -/
inductive StepOut
  | pause (q : String) (asked_by : Speaker) (tr : List String) (b : QuestionBudget)
  | brk (st : EngineState) (tr : List String) (b : QuestionBudget)
  | cont (st : EngineState) (tr : List String) (b : QuestionBudget)
deriving DecidableEq

/-- One iteration of the `for turn_index in range(...)` loop body of
`_run_single`.  Odd indices are user turns (override default
`PROPOSE_OFFER`), even indices counterparty turns (override default
`COUNTER_OFFER` followed by the arbiter verdict, backfill, and the
PASS/FAIL early-termination check).  A pause leaves the state untouched
(the pausing turn is not appended) and records the pausing agent's
trace. -/
def turnStep (c : CaseSnapshot) (script : Script) (sugg : List Suggestion)
    (i : Nat) (st : EngineState) (b : QuestionBudget) : StepOut :=
  let sc := script i
  let ea := extract_action sc.call
  if i % 2 = 1 then
    if ea.1 = "ASK_INFO" then
      let q := extract_question_text sc.call.text ea.2.1
      if q = "" then
        .cont (appendUserTurn sugg i sc.call (overriddenAction "PROPOSE_OFFER") st)
          ["UserProxy"] b
      else
        let r := b.reserve
        if r.ok then
          .pause q .USER ["UserProxy"] r.state
        else
          .cont (appendUserTurn sugg i sc.call (overriddenAction "PROPOSE_OFFER") st)
            ["UserProxy"] r.state
    else
      .cont (appendUserTurn sugg i sc.call ea.2.2 st) ["UserProxy"] b
  else
    if ea.1 = "ASK_INFO" then
      let q := extract_question_text sc.call.text ea.2.1
      if q = "" then
        let st' := appendCounterTurn c sugg i sc.call sc.world
          (overriddenAction "COUNTER_OFFER") st
        if st'.latest_outcome = .PASS ∨ st'.latest_outcome = .FAIL then
          .brk st' ["Counterparty", "WorldAgent"] b
        else .cont st' ["Counterparty", "WorldAgent"] b
      else
        let r := b.reserve
        if r.ok then
          .pause q .COUNTERPARTY ["Counterparty"] r.state
        else
          let st' := appendCounterTurn c sugg i sc.call sc.world
            (overriddenAction "COUNTER_OFFER") st
          if st'.latest_outcome = .PASS ∨ st'.latest_outcome = .FAIL then
            .brk st' ["Counterparty", "WorldAgent"] r.state
          else .cont st' ["Counterparty", "WorldAgent"] r.state
    else
      let st' := appendCounterTurn c sugg i sc.call sc.world ea.2.2 st
      if st'.latest_outcome = .PASS ∨ st'.latest_outcome = .FAIL then
        .brk st' ["Counterparty", "WorldAgent"] b
      else .cont st' ["Counterparty", "WorldAgent"] b

/-- Outcome of the whole turn loop: paused for a question, stopped by the
PASS/FAIL break, or the index range exhausted.  `tr` is the accumulated
`agent_call_traces` list. -/
inductive LoopOut
  | pausedAt (st : EngineState) (tr : List String) (b : QuestionBudget)
      (ps : PauseState) (q : String) (asked_by : Speaker) (idx : Nat)
  | broke (st : EngineState) (tr : List String) (b : QuestionBudget)
  | ended (st : EngineState) (tr : List String) (b : QuestionBudget)
deriving DecidableEq

/-- The turn loop over a list of turn indices.  A pause captures the
current conversation, turns, traces (including the pausing agent's
trace just appended), last outcome, pending slot, the index of the turn
being attempted, and the strategy-suggestion list. -/
def go (c : CaseSnapshot) (script : Script) (sugg : List Suggestion) :
    List Nat → EngineState → List String → QuestionBudget → LoopOut
  | [], st, tr, b => .ended st tr b
  | i :: rest, st, tr, b =>
    match turnStep c script sugg i st b with
    | .pause q sp dtr b' =>
      .pausedAt st (tr ++ dtr) b'
        ⟨st.conversation, st.turns, tr ++ dtr, st.latest_outcome,
          st.round_user_turn_index, i, sugg⟩ q sp i
    | .brk st' dtr b' => .broke st' (tr ++ dtr) b'
    | .cont st' dtr b' => go c script sugg rest st' (tr ++ dtr) b'

/-- The engine state a loop result carries. -/
def outState : LoopOut → EngineState
  | .pausedAt st _ _ _ _ _ _ => st
  | .broke st _ _ => st
  | .ended st _ _ => st

/-- The run status a loop result leads to. -/
def statusOf : LoopOut → RunStatus
  | .pausedAt _ _ _ _ _ _ _ => .PAUSED
  | .broke _ _ _ => .COMPLETED
  | .ended _ _ _ => .COMPLETED

/-- The budget a loop result carries. -/
def outBudget : LoopOut → QuestionBudget
  | .pausedAt _ _ b _ _ _ _ => b
  | .broke _ _ b => b
  | .ended _ _ b => b

/-- The pause state a loop result carries, if any. -/
def pauseStateOf : LoopOut → Option PauseState
  | .pausedAt _ _ _ ps _ _ _ => some ps
  | .broke _ _ _ => none
  | .ended _ _ _ => none

/-- Prefix every trace list inside a loop result with `t` (the loop is
oblivious to the traces accumulated before it started). -/
def shiftTraces (t : List String) : LoopOut → LoopOut
  | .pausedAt st tr b ps q sp i =>
    .pausedAt st (t ++ tr) b { ps with agent_call_traces := t ++ ps.agent_call_traces } q sp i
  | .broke st tr b => .broke st (t ++ tr) b
  | .ended st tr b => .ended st (t ++ tr) b

/-- The behavioural content of a run record: its turns, outcome, status
and utility (identity and bookkeeping fields aside). -/
def runBehavior (r : SimulationRun) : List Turn × Outcome × RunStatus × ℚ :=
  (r.turns, r.outcome, r.status, r.user_utility)

/-- `max_turns = max(1, int(max_turns))` in `_run_single`. -/
def effMaxTurns (max_turns : Int) : Nat :=
  (max 1 max_turns).toNat

/-- `range(start_turn_index, max_turns + 1)`. -/
def runIndices (start mx : Nat) : List Nat :=
  List.range' start (mx + 1 - start)

/-- The fresh local state of `_run_single` when not resuming. -/
def initState : EngineState :=
  ⟨[], [], .NEUTRAL, none⟩

/-- `strategy_suggestions or self._strategy_suggestions(seed)`: a `None`
*or empty* captured list is regenerated (Python truthiness). -/
def chooseSuggestions (ctx : EngineCtx) (seed : Int) :
    Option (List Suggestion) → List Suggestion
  | none => ctx.regen seed
  | some l => if l.isEmpty then ctx.regen seed else l

/-- Assemble the completed result (`_run_single` after the loop): two
more world-agent calls (structure extraction and run summary), then the
COMPLETED run record and trace bundle. -/
def completedResult (ctx : EngineCtx) (c : CaseSnapshot) (seed : Int)
    (session_id run_id : String) (sugg : List Suggestion) (mx : Nat)
    (st : EngineState) (tr : List String) (b : QuestionBudget) : SimulationResult :=
  { run :=
      { run_id := run_id
      , case_id := c.case_id
      , seed := seed
      , persona_id := "GENERIC"
      , turns := st.turns
      , outcome := st.latest_outcome
      , user_utility := utility_from_outcome st.latest_outcome
      , summary := ctx.world_summary
      , status := .COMPLETED
      , session_id := session_id
      , pending_question_id := none
      , max_turns := mx
      , max_questions := b.max_questions }
  , trace_bundle :=
      { seed := seed
      , session_id := session_id
      , max_questions := b.max_questions
      , strategy_suggestions := sugg
      , pause_state := none
      , agent_call_traces := tr ++ ["WorldAgent", "WorldAgent"] }
  , pending_question := none }

/-- Assemble the paused result (pause site of `_run_single`). -/
def pausedResult (c : CaseSnapshot) (seed : Int) (session_id run_id : String)
    (sugg : List Suggestion) (mx : Nat) (st : EngineState) (tr : List String)
    (b : QuestionBudget) (ps : PauseState) (q : String) (sp : Speaker)
    (idx : Nat) : SimulationResult :=
  { run :=
      { run_id := run_id
      , case_id := c.case_id
      , seed := seed
      , persona_id := "GENERIC"
      , turns := st.turns
      , outcome := st.latest_outcome
      , user_utility := utility_from_outcome st.latest_outcome
      , summary := none
      , status := .PAUSED
      , session_id := session_id
      , pending_question_id := none
      , max_turns := mx
      , max_questions := b.max_questions }
  , trace_bundle :=
      { seed := seed
      , session_id := session_id
      , max_questions := b.max_questions
      , strategy_suggestions := sugg
      , pause_state := some ps
      , agent_call_traces := tr }
  , pending_question := some ⟨q, sp, idx, session_id, run_id⟩ }

/-- `_run_single`: restore (or initialise) the local state, pick the
suggestion list, clamp `max_turns`, run the loop from the start index,
and assemble the paused or completed result. -/
def run_single (ctx : EngineCtx) (script : Script) (c : CaseSnapshot)
    (seed : Int) (max_turns : Int) (session_id : String) (b0 : QuestionBudget)
    (resume_state : Option PauseState) (run_idq : Option String)
    (suggq : Option (List Suggestion)) : SimulationResult :=
  let run_id := run_idq.getD ctx.fresh_run_id
  let sugg := chooseSuggestions ctx seed suggq
  let st0 : EngineState :=
    match resume_state with
    | some ps => ⟨ps.conversation, ps.turns, ps.latest_outcome, ps.round_user_turn_index⟩
    | none => initState
  let tr0 : List String :=
    match resume_state with
    | some ps => ps.agent_call_traces
    | none => []
  let start : Nat :=
    match resume_state with
    | some ps => ps.next_turn_index
    | none => 1
  let mx := effMaxTurns max_turns
  match go c script sugg (runIndices start mx) st0 tr0 b0 with
  | .pausedAt st tr b ps q sp idx =>
    pausedResult c seed session_id run_id sugg mx st tr b ps q sp idx
  | .broke st tr b => completedResult ctx c seed session_id run_id sugg mx st tr b
  | .ended st tr b => completedResult ctx c seed session_id run_id sugg mx st tr b

/-- One scheduled run as `run_stream` launches it: a fresh budget
(`QuestionBudget(max_questions)`), no resume state, engine-minted run id,
regenerated suggestions. -/
def fresh_run (ctx : EngineCtx) (script : Script) (c : CaseSnapshot)
    (seed : Int) (max_turns : Int) (session_id : String)
    (max_questions : Option Int) : SimulationResult :=
  run_single ctx script c seed max_turns session_id
    (QuestionBudget.init max_questions 0) none none none

/-- `resume_run`: rebuild the budget from the run record's
`max_questions` and the caller-supplied `budget_used`, then re-enter
`_run_single` with the stored pause state, run id, and captured
strategy suggestions.  (No validation of any kind is performed.) -/
def resume_run (ctx : EngineCtx) (script : Script) (c : CaseSnapshot)
    (run_data : SimulationRun) (tb : TraceBundle) (max_turns : Int)
    (budget_used : Int) : SimulationResult :=
  let session_id :=
    if run_data.session_id = "" then ctx.fresh_session_id else run_data.session_id
  let b := QuestionBudget.init (some run_data.max_questions) budget_used
  run_single ctx script c run_data.seed max_turns session_id b
    tb.pause_state (some run_data.run_id) (some tb.strategy_suggestions)

/-- `total_runs = max(1, int(runs))` in `run_stream`. -/
def total_runs (runs : Int) : Int :=
  max 1 runs

/-- The per-run seeds launched by `run_stream`:
`base_seed + offset` for `offset in range(total_runs)`. -/
def run_stream_seeds (base_seed : Int) (runs : Int) : List Int :=
  (List.range (total_runs runs).toNat).map (fun o => base_seed + o)

/-- The turn `appendUserTurn` appends. -/
def mkUserTurn (sugg : List Suggestion) (i : Nat) (call : CallModel)
    (action : ActionObj) (st : EngineState) : Turn :=
  ⟨i, .USER, call.text, st.conversation ++ [⟨.USER, call.text⟩],
    st.latest_outcome, sugg, call.used_strategies, action⟩

/-- The outcome `appendCounterTurn` resolves. -/
def counterResolved (c : CaseSnapshot) (call : CallModel) (world : Option Outcome)
    (st : EngineState) : Outcome :=
  world.getD (evaluate_outcome c (st.conversation ++ [⟨.COUNTERPARTY, call.text⟩]))

/-- The turn `appendCounterTurn` appends. -/
def mkCounterTurn (c : CaseSnapshot) (sugg : List Suggestion) (i : Nat)
    (call : CallModel) (world : Option Outcome) (action : ActionObj)
    (st : EngineState) : Turn :=
  ⟨i, .COUNTERPARTY, call.text, st.conversation ++ [⟨.COUNTERPARTY, call.text⟩],
    counterResolved c call world st, sugg, call.used_strategies, action⟩

/-- No counterparty turn in the list carries a PASS/FAIL verdict (the
shape of the turn list while the loop is still running). -/
def noCounterVerdict (ts : List Turn) : Prop :=
  ∀ t ∈ ts, t.speaker = .COUNTERPARTY → t.outcome ≠ .PASS ∧ t.outcome ≠ .FAIL

/-- The pending-outcome slot, when set, points at a user turn inside the
list. -/
def slotPointsAtUser (st : EngineState) : Prop :=
  ∀ j, st.round_user_turn_index = some j →
    ∃ t, st.turns[j]? = some t ∧ t.speaker = .USER

/-! ## Concrete instances used by witnesses and counterexamples -/

/-- A throwaway turn used as `List.getD` default. -/
def dummyTurn : Turn :=
  ⟨0, .USER, "", [], .NEUTRAL, [], none, ⟨none, none⟩⟩

/-- An engine context with an empty strategy registry. -/
def sampleCtx : EngineCtx :=
  ⟨fun _ => [], none, "run-0001", "sess-0001"⟩

/-- A single-issue MAXIMIZE case with scalar objectives 100000/85000. -/
def sampleCase : CaseSnapshot :=
  { case_id := "case-0001"
  , objectives :=
      { target := ⟨.SINGLE_VALUE, .scalar (.num (mkRat 100000 1))⟩
      , reservation := ⟨.SINGLE_VALUE, .scalar (.num (mkRat 85000 1))⟩
      , issue_weights := [] }
  , issues := some [⟨"price", .MAXIMIZE⟩]
  , user_issues := none
  , counterparty_issues := none }

/-- A plain (non-asking) agent call. -/
def offerCall (t ty : String) : CallModel :=
  ⟨t, some ⟨some ty, some ⟨none⟩⟩, none⟩

/-- A script that never asks: plain offers, arbiter returns NEUTRAL. -/
def neutralScript : Script := fun i =>
  ⟨offerCall (if i % 2 = 1 then "I propose a fair deal." else "Here is a counteroffer.")
      (if i % 2 = 1 then "PROPOSE_OFFER" else "COUNTER_OFFER"),
    some .NEUTRAL⟩

/-- A script whose agents always request `ASK_INFO` with a non-empty
question; the arbiter stays NEUTRAL. -/
def askScript : Script := fun _ =>
  ⟨⟨"What is the max budget?",
      some ⟨some "ASK_INFO", some ⟨some "What is the max budget?"⟩⟩, none⟩,
    some .NEUTRAL⟩

/-- Like `neutralScript` but the arbiter returns PASS on turn 2. -/
def passAt2Script : Script := fun i =>
  if i = 2 then ⟨offerCall "We accept the 120,000 offer." "COUNTER_OFFER", some .PASS⟩
  else neutralScript i

/-- A throwaway pause state used as `Option.getD` default. -/
def dummyPause : PauseState :=
  ⟨[], [], [], .NEUTRAL, none, 1, []⟩

/-- A script whose counterparty requests `ASK_INFO` on turn 2 (and plays
plain turns elsewhere). -/
def pauseAt2Script : Script := fun i =>
  if i = 2 then
    ⟨⟨"Can you move the start date?",
        some ⟨some "ASK_INFO", some ⟨some "Can you move the start date?"⟩⟩, none⟩,
      none⟩
  else neutralScript i

/-- The post-clarification responses: on turn 2 the counterparty now
answers with an offer of 120,000 (no arbiter verdict, so the fallback
evaluator resolves it). -/
def afterAnswerScript : Script := fun i =>
  if i = 2 then ⟨offerCall "We can go to 120,000." "COUNTER_OFFER", none⟩
  else neutralScript i

/-- A run of `pauseAt2Script` against `sampleCase` with one question
allowed: it pauses on turn 2. -/
def c3Paused : SimulationResult :=
  fresh_run sampleCtx pauseAt2Script sampleCase 7 4 "sess-0001" (some 1)

/-- Resuming `c3Paused` with the post-clarification script and the
session's question count of 1. -/
def c3Resumed : SimulationResult :=
  resume_run sampleCtx afterAnswerScript sampleCase c3Paused.run c3Paused.trace_bundle 4 1

/-- A case with two user issues: the first listed is MINIMIZE with low
weight, the second MAXIMIZE with the highest weight. -/
def twoIssueCase : CaseSnapshot :=
  { case_id := "case-0002"
  , objectives :=
      { target := ⟨.SINGLE_VALUE, .scalar (.num (mkRat 100000 1))⟩
      , reservation := ⟨.SINGLE_VALUE, .scalar (.num (mkRat 85000 1))⟩
      , issue_weights := [("price", mkRat 1 10), ("salary", mkRat 9 10)] }
  , issues := none
  , user_issues := some [⟨"price", .MINIMIZE⟩, ⟨"salary", .MAXIMIZE⟩]
  , counterparty_issues := none }

/-- A stale pause state pointing beyond a `max_turns` of 4. -/
def stalePause : PauseState :=
  ⟨[], [], ["UserProxy"], .NEUTRAL, none, 9, []⟩

/-- The paused run record stored alongside `stalePause`. -/
def staleRun : SimulationRun :=
  ⟨"run-0001", "case-0001", 7, "GENERIC", [], .NEUTRAL, mkRat 1 2, none, .PAUSED,
    "sess-0001", none, 4, 0⟩

/-- The trace bundle stored alongside `stalePause`. -/
def staleBundle : TraceBundle :=
  ⟨7, "sess-0001", 0, [], some stalePause, ["UserProxy"]⟩

/-! ## Agent port (`agents/base.py` `_build_call`,
`agents/counterparty.py` `roleplay`) -/

/-- The keys of a roleplay `parsed_output` dict that the agent layer and
the engine read.  Keys absent from the dict are `none`. -/
structure ParsedDict where
  message_text : Option String
  action : Option ActionObj
  used_strategies : Option (List String)
  fallback_used : Option Bool
  fallback_reason : Option String
deriving DecidableEq

/-- A `validation_result` dict. -/
structure ValidationResult where
  status : String
  reason : Option String
deriving DecidableEq

/-- `AgentCallResult`, restricted to the fields consumers read
(`raw_output` for the trace, `parsed_output`, `validation_result`; the
prompt bookkeeping fields carry no behaviour). -/
structure AgentCallResult where
  raw_output : String
  parsed_output : ParsedDict
  validation_result : ValidationResult
deriving DecidableEq

/-- The behaviour of the underlying `self.llm.run(...)` call: a parsed
response, an `LLMResponseError` (possibly carrying raw output), or any
other exception. -/
inductive LLMOutcome
  | ok (raw : String) (parsed : ParsedDict)
  | errResponse (raw : Option String) (msg : String)
  | errOther (msg : String)
deriving DecidableEq

/-- `AgentBase._build_call`: on success, PASS validation and the parsed
output; on `LLMResponseError`, the caller's fallback dict verbatim with a
FAIL validation carrying the error message; on any other exception, the
fallback dict with a FAIL validation and reason "LLM error".  No
exception escapes. -/
def build_call (llm : LLMOutcome) (fallback_parsed : ParsedDict) : AgentCallResult :=
  match llm with
  | .ok raw parsed => ⟨raw, parsed, ⟨"PASS", none⟩⟩
  | .errResponse rawq m =>
    let raw :=
      match rawq with
      | some r => if r = "" then "LLM_ERROR: " ++ m else r
      | none => "LLM_ERROR: " ++ m
    ⟨raw, fallback_parsed, ⟨"FAIL", some m⟩⟩
  | .errOther m => ⟨"LLM_ERROR: " ++ m, fallback_parsed, ⟨"FAIL", some "LLM error"⟩⟩

/-- The fallback payload `CounterpartyAgent.roleplay` builds from the
caller-supplied fallback message. -/
def counterpartyFallbackPayload (fallback_message : String) : ParsedDict :=
  { message_text := some fallback_message
  , action := some ⟨some "COUNTER_OFFER", some ⟨none⟩⟩
  , used_strategies := some []
  , fallback_used := none
  , fallback_reason := none }

/-- `CounterpartyAgent.roleplay`: build the call; when its validation
status is FAIL, substitute the fallback message, the fallback action and
an empty strategy list; rebuild `parsed_output`; and return the message
text (possibly `None` when the model omitted it) with the call record. -/
def counterparty_roleplay (llm : LLMOutcome) (fallback_message : String) :
    Option String × AgentCallResult :=
  let fb := counterpartyFallbackPayload fallback_message
  let call := build_call llm fb
  let fallback_used := call.validation_result.status = "FAIL"
  let message_text : Option String :=
    if fallback_used then some fallback_message else call.parsed_output.message_text
  let used_strategies : Option (List String) :=
    if fallback_used then some [] else call.parsed_output.used_strategies
  let action : Option ActionObj :=
    if fallback_used then fb.action
    else
      match call.parsed_output.action with
      | some a => some a
      | none => fb.action
  (message_text,
    { call with parsed_output :=
        { message_text := message_text
        , action := action
        , used_strategies := used_strategies
        , fallback_used := some fallback_used
        , fallback_reason := if fallback_used then some "unparsable" else none } })

/-!
## Theorems
-/

/-- The constructor only produces non-negative fields. -/
theorem QuestionBudget.init_nonneg (mq : Option Int) (u : Int) :
    0 ≤ (QuestionBudget.init mq u).max_questions ∧ 0 ≤ (QuestionBudget.init mq u).used := by
  cases mq <;> constructor <;> simp [QuestionBudget.init]

/-- A successful reservation: both guards pass. -/
theorem QuestionBudget.reserve_succ (b : QuestionBudget)
    (hu : 0 ≤ b.used) (h : b.used < b.max_questions) :
    b.reserve = ⟨true, { b with used := b.used + 1 }, true⟩ := by
  unfold QuestionBudget.reserve
  rw [if_neg (by omega), if_neg (by omega)]

/-- A failed reservation leaves the state unchanged (whichever guard
rejected it). -/
theorem QuestionBudget.reserve_fail (b : QuestionBudget)
    (h : b.max_questions ≤ b.used ∨ b.max_questions ≤ 0) :
    b.reserve.ok = false ∧ b.reserve.state = b := by
  unfold QuestionBudget.reserve
  by_cases h0 : b.max_questions ≤ 0
  · rw [if_pos h0]; exact ⟨rfl, rfl⟩
  · rw [if_neg h0, if_pos (by omega)]; exact ⟨rfl, rfl⟩

/-- A reservation that returned `False` left the budget unchanged,
whatever the state was. -/
theorem QuestionBudget.reserve_state_of_not_ok (b : QuestionBudget)
    (h : b.reserve.ok = false) : b.reserve.state = b := by
  by_cases h0 : b.max_questions ≤ 0
  · unfold QuestionBudget.reserve
    rw [if_pos h0]
  · by_cases h1 : b.max_questions ≤ b.used
    · unfold QuestionBudget.reserve
      rw [if_neg h0, if_pos h1]
    · exfalso
      unfold QuestionBudget.reserve at h
      rw [if_neg h0, if_neg h1] at h
      exact Bool.noConfusion h

/-- `reserve` keeps both fields non-negative. -/
theorem QuestionBudget.reserve_nonneg (b : QuestionBudget)
    (hm : 0 ≤ b.max_questions) (hu : 0 ≤ b.used) :
    0 ≤ b.reserve.state.max_questions ∧ 0 ≤ b.reserve.state.used := by
  unfold QuestionBudget.reserve
  split
  · exact ⟨hm, hu⟩
  · split
    · exact ⟨hm, hu⟩
    · exact ⟨hm, by simpa using le_trans hu (by omega)⟩

/-- C1: For every `QuestionBudget` (with the non-negative `used` count the
constructor and `reserve` guarantee), `reserve()` returns `true` and
increments `used` by exactly 1 iff `used < max_questions` at the time of
the call; when it returns `false` the whole state is unchanged; and
whenever `max_questions ≤ 0` it returns `false` without acquiring the
lock. -/
theorem C1_reserve_spec (b : QuestionBudget) (hu : 0 ≤ b.used) :
    (b.reserve.ok = true ↔ b.used < b.max_questions)
    ∧ (b.reserve.ok = true →
        b.reserve.state.used = b.used + 1 ∧ b.reserve.state.max_questions = b.max_questions)
    ∧ (b.reserve.ok = false → b.reserve.state = b)
    ∧ (b.max_questions ≤ 0 → b.reserve.ok = false ∧ b.reserve.lockTaken = false) := by
  by_cases h : b.used < b.max_questions
  · rw [QuestionBudget.reserve_succ b hu h]
    refine ⟨by simpa using h, fun _ => ⟨rfl, rfl⟩, by simp, fun h0 => absurd h (by omega)⟩
  · obtain ⟨hok, hst⟩ := QuestionBudget.reserve_fail b (Or.inl (by omega))
    refine ⟨?_, ?_, fun _ => hst, fun h0 => ?_⟩
    · rw [hok]; simp; omega
    · rw [hok]; simp
    · have hfast : b.reserve = ⟨false, b, false⟩ := by
        unfold QuestionBudget.reserve
        rw [if_pos h0]
      rw [hfast]
      exact ⟨rfl, rfl⟩

/-- Witness for C1 at the concrete budget `⟨2, 1⟩`. -/
theorem C1_reserve_spec_witness :
    (0 : Int) ≤ (1 : Int)
    ∧ ((QuestionBudget.mk 2 1).reserve.ok = true ↔ (1 : Int) < 2)
    ∧ ((QuestionBudget.mk 2 1).reserve.ok = true →
        (QuestionBudget.mk 2 1).reserve.state.used = 2
        ∧ (QuestionBudget.mk 2 1).reserve.state.max_questions = 2) := by
  refine ⟨by decide, ?_, ?_⟩
  · exact (C1_reserve_spec (QuestionBudget.mk 2 1) (by decide)).1
  · intro h
    have := (C1_reserve_spec (QuestionBudget.mk 2 1) (by decide)).2.1 h
    simpa using this

/-- C2 counterexample: the constructor accepts an initial `used` count
larger than `max_questions` (exactly what `resume_run` does with a
caller-supplied `budget_used`), so the invariant `used ≤ max` does *not*
hold after construction with an arbitrary initial used count:
`QuestionBudget(1, used=5)` has `used = 5 > 1 = max`. -/
theorem C2_budget_counterexample :
    ¬ ((QuestionBudget.init (some 1) 5).used ≤ (QuestionBudget.init (some 1) 5).max_questions) := by
  decide

/-- Helper for C2: exact success count of repeated reservations.  From any
state with non-negative `used`, `n` attempts succeed exactly
`min (max_questions - used) n` times (`Int.toNat` clamps at 0). -/
theorem QuestionBudget.reserveMany_count (n : Nat) :
    ∀ b : QuestionBudget, 0 ≤ b.used →
      (b.reserveMany n).2 = min (b.max_questions - b.used).toNat n := by
  induction n with
  | zero => intro b _; simp [QuestionBudget.reserveMany]
  | succ n ih =>
    intro b hu
    rw [QuestionBudget.reserveMany]
    by_cases h : b.used < b.max_questions
    · rw [QuestionBudget.reserve_succ b hu h]
      have h2 := ih { b with used := b.used + 1 } (by simp; omega)
      simp only [h2]
      simp only [↓reduceIte]
      omega
    · obtain ⟨hok, hst⟩ := QuestionBudget.reserve_fail b (Or.inl (by omega))
      rw [hok, hst, ih b hu]
      simp only [Bool.false_eq_true, ↓reduceIte]
      omega

/-- C2 (amended): the invariant `used ≤ max_questions` holds for every
budget constructed with `used = 0` (the fresh budgets built by
`run_stream`), is preserved by every `reserve()` call — the constructor
alone can violate it when `resume_run` supplies `used > max` — and `N`
reservation attempts against a fresh budget of `M < N` succeed exactly `M`
times. -/
theorem C2_budget_amended :
    (∀ mq : Option Int, (QuestionBudget.init mq 0).used ≤ (QuestionBudget.init mq 0).max_questions)
    ∧ (∀ b : QuestionBudget, b.used ≤ b.max_questions →
        b.reserve.state.used ≤ b.reserve.state.max_questions)
    ∧ (∀ (b : QuestionBudget) (n : Nat), b.used ≤ b.max_questions →
        (b.reserveMany n).1.used ≤ (b.reserveMany n).1.max_questions)
    ∧ (∀ (M : Int) (N : Nat), 0 ≤ M → M < N →
        ((QuestionBudget.init (some M) 0).reserveMany N).2 = M.toNat) := by
  refine ⟨?_, ?_, ?_, ?_⟩
  · intro mq
    cases mq <;> simp [QuestionBudget.init]
  · intro b hb
    unfold QuestionBudget.reserve
    split
    · exact hb
    · split
      · exact hb
      · simp; omega
  · intro b n
    induction n generalizing b with
    | zero => intro hb; simpa [QuestionBudget.reserveMany] using hb
    | succ n ih =>
      intro hb
      unfold QuestionBudget.reserveMany
      apply ih
      unfold QuestionBudget.reserve
      split
      · exact hb
      · split
        · exact hb
        · simp; omega
  · intro M N hM hMN
    have h := QuestionBudget.reserveMany_count N (QuestionBudget.init (some M) 0)
      (by simp [QuestionBudget.init])
    rw [h]
    simp [QuestionBudget.init]
    omega

/-- Witness for C2 (amended) at concrete inputs. -/
theorem C2_budget_amended_witness :
    ((QuestionBudget.mk 2 1).used ≤ (QuestionBudget.mk 2 1).max_questions
      ∧ (QuestionBudget.mk 2 1).reserve.state.used
          ≤ (QuestionBudget.mk 2 1).reserve.state.max_questions)
    ∧ ((0 : Int) ≤ 2 ∧ (2 : Int) < 5
        ∧ ((QuestionBudget.init (some 2) 0).reserveMany 5).2 = (2 : Int).toNat) := by
  refine ⟨⟨by decide, ?_⟩, by decide, by decide, ?_⟩
  · exact C2_budget_amended.2.1 (QuestionBudget.mk 2 1) (by decide)
  · exact C2_budget_amended.2.2.2 2 5 (by decide) (by decide)

/-- C4: the fallback outcome evaluator is a pure function of the latest
counterparty utterance and the configured target/reservation/direction;
it agrees with the spec's decision table (minimum of the extracted
numbers for MINIMIZE, maximum for MAXIMIZE; NEUTRAL / PASS / NEUTRAL /
FAIL per the table), and the three concrete examples of the claim hold,
with thousands separators handled. -/
theorem C4_fallback_outcome :
    (∀ (text : String) (target reservation : Option ℚ) (dir : IssueDirection),
        evaluate_outcome_text text target reservation dir
          = specFallbackOutcome text target reservation dir)
    ∧ (∀ (c : CaseSnapshot) (m : Msg) (ms : List Msg),
        evaluate_outcome c (m :: ms)
          = evaluate_outcome_text (latest_counterparty_text (m :: ms))
              (desired_values c).1 (desired_values c).2.1 (desired_values c).2.2)
    ∧ evaluate_outcome_text "We can offer 120,000 for the role."
        (some 100000) none .MAXIMIZE = .PASS
    ∧ evaluate_outcome_text "Best I can do is 80,000."
        (some 100000) (some 85000) .MAXIMIZE = .FAIL
    ∧ evaluate_outcome_text "Let me think about it."
        (some 100000) (some 85000) .MAXIMIZE = .NEUTRAL := by
  refine ⟨?_, ?_, by decide, by decide, by decide⟩
  · intro text target reservation dir
    unfold evaluate_outcome_text specFallbackOutcome extract_offer_value
    cases dir <;>
      cases extract_numbers text <;>
      cases target <;>
      simp [List.min?, List.max?, offerSatisfiesB] <;>
      cases reservation <;>
      simp [decide_eq_true_eq]
  · intro c m ms
    rfl

/-- C10: the scheduler silently clamps both knobs to a minimum of 1:
`runs ≤ 0` still launches exactly one run (one task, one seed), and
`max_turns ≤ 0` still makes the loop execute exactly the single index 1;
neither input is rejected (both functions are total).  The last conjunct
runs a whole simulation with `max_turns = -3`: it completes with exactly
one turn. -/
theorem C10_min_clamping :
    (∀ runs : Int, runs ≤ 0 → total_runs runs = 1)
    ∧ (∀ base runs : Int, runs ≤ 0 → (run_stream_seeds base runs).length = 1)
    ∧ (∀ mt : Int, mt ≤ 0 → effMaxTurns mt = 1 ∧ runIndices 1 (effMaxTurns mt) = [1])
    ∧ ((fresh_run sampleCtx neutralScript sampleCase 7 (-3) "sess-0001" (some 0)).run.turns.length = 1
        ∧ (fresh_run sampleCtx neutralScript sampleCase 7 (-3) "sess-0001" (some 0)).run.status
            = .COMPLETED
        ∧ (fresh_run sampleCtx neutralScript sampleCase 7 (-3) "sess-0001" (some 0)).run.max_turns
            = 1) := by
  refine ⟨?_, ?_, ?_, by decide⟩
  · intro runs h
    unfold total_runs
    rw [max_eq_left (by omega)]
  · intro base runs h
    unfold run_stream_seeds
    simp only [List.length_map, List.length_range]
    unfold total_runs
    rw [max_eq_left (by omega)]
    rfl
  · intro mt h
    have h1 : effMaxTurns mt = 1 := by
      unfold effMaxTurns
      omega
    exact ⟨h1, by rw [h1]; rfl⟩

/-- Witness for C10 at `runs = -2`, `max_turns = -3`. -/
theorem C10_min_clamping_witness :
    ((-2 : Int) ≤ 0 ∧ total_runs (-2) = 1)
    ∧ (run_stream_seeds 7 (-2)).length = 1
    ∧ (effMaxTurns (-3) = 1 ∧ runIndices 1 (effMaxTurns (-3)) = [1]) := by
  refine ⟨⟨by decide, C10_min_clamping.1 (-2) (by decide)⟩, ?_, ?_⟩
  · exact C10_min_clamping.2.1 7 (-2) (by decide)
  · exact C10_min_clamping.2.2.1 (-3) (by decide)

/-- C8 counterexample: resuming a pause state whose `next_turn_index` (9)
lies beyond the configured max turns (4), with an exhausted budget
(`budget_used = 0 ≥ max_questions = 0`), is *not* rejected and produces
no error: `resume_run` returns an ordinary COMPLETED run (the loop range
is empty, so it falls through to completion). -/
theorem C8_counterexample :
    (resume_run sampleCtx neutralScript sampleCase staleRun staleBundle 4 0).run.status
        = .COMPLETED
    ∧ (resume_run sampleCtx neutralScript sampleCase staleRun staleBundle 4 0).run.turns = []
    ∧ (resume_run sampleCtx neutralScript sampleCase staleRun staleBundle 4 0).pending_question
        = none := by
  decide

/-- C8 (amended): `resume_run` performs no validation.  A pause state
whose next turn index is beyond the clamped max turns makes the loop run
zero iterations, so the resume silently *completes* the run with the
captured turns and last-known outcome (no error, no rejection); and a
session budget already exhausted (`budget_used ≥ max_questions`) is not
rejected either — the reconstructed budget simply refuses every
reservation, so `ASK_INFO` requests get downgraded and the run proceeds. -/
theorem C8_amended :
    (∀ (ctx : EngineCtx) (script : Script) (c : CaseSnapshot) (rd : SimulationRun)
        (tb : TraceBundle) (mt bu : Int) (ps : PauseState),
        tb.pause_state = some ps →
        effMaxTurns mt < ps.next_turn_index →
        ((resume_run ctx script c rd tb mt bu).run.status = .COMPLETED
          ∧ (resume_run ctx script c rd tb mt bu).run.turns = ps.turns
          ∧ (resume_run ctx script c rd tb mt bu).run.outcome = ps.latest_outcome
          ∧ (resume_run ctx script c rd tb mt bu).pending_question = none))
    ∧ (∀ (rd : SimulationRun) (bu : Int), rd.max_questions ≤ bu →
        (QuestionBudget.init (some rd.max_questions) bu).reserve.ok = false) := by
  constructor
  · intro ctx script c rd tb mt bu ps hps hlt
    have hidx : runIndices ps.next_turn_index (effMaxTurns mt) = [] := by
      unfold runIndices
      have h0 : effMaxTurns mt + 1 - ps.next_turn_index = 0 := by omega
      rw [h0]
      rfl
    unfold resume_run run_single
    rw [hps]
    simp only [hidx, go]
    exact ⟨rfl, rfl, rfl, rfl⟩
  · intro rd bu h
    apply (QuestionBudget.reserve_fail _ (Or.inl ?_)).1
    unfold QuestionBudget.init
    simp only []
    omega

/-- C6: whenever the normalized action type is `ASK_INFO` but the
resolved question text is empty or the budget reservation fails, the
turn is not a pause: the action is overridden to `PROPOSE_OFFER` on user
turns and `COUNTER_OFFER` on counterparty turns and the turn proceeds
normally (same state transition as a plain turn, budget unchanged).  The
final conjunct is the claim's scenario: `max_turns = 4`,
`max_questions = 0`, agents that always request `ASK_INFO`: the run
completes after exactly 4 turns, every turn's recorded action is the
overridden default, and no pause or pending question is ever emitted. -/
theorem C6_ask_info_downgrade :
    (∀ (c : CaseSnapshot) (script : Script) (sugg : List Suggestion) (i : Nat)
        (st : EngineState) (b : QuestionBudget),
        i % 2 = 1 →
        (extract_action (script i).call).1 = "ASK_INFO" →
        (extract_question_text (script i).call.text (extract_action (script i).call).2.1 = ""
          ∨ b.reserve.ok = false) →
        turnStep c script sugg i st b
          = .cont (appendUserTurn sugg i (script i).call (overriddenAction "PROPOSE_OFFER") st)
              ["UserProxy"] b)
    ∧ (∀ (c : CaseSnapshot) (script : Script) (sugg : List Suggestion) (i : Nat)
        (st : EngineState) (b : QuestionBudget),
        i % 2 = 0 →
        (extract_action (script i).call).1 = "ASK_INFO" →
        (extract_question_text (script i).call.text (extract_action (script i).call).2.1 = ""
          ∨ b.reserve.ok = false) →
        turnStep c script sugg i st b
          = (if (appendCounterTurn c sugg i (script i).call (script i).world
                  (overriddenAction "COUNTER_OFFER") st).latest_outcome = .PASS
                ∨ (appendCounterTurn c sugg i (script i).call (script i).world
                  (overriddenAction "COUNTER_OFFER") st).latest_outcome = .FAIL
              then .brk (appendCounterTurn c sugg i (script i).call (script i).world
                  (overriddenAction "COUNTER_OFFER") st) ["Counterparty", "WorldAgent"] b
              else .cont (appendCounterTurn c sugg i (script i).call (script i).world
                  (overriddenAction "COUNTER_OFFER") st) ["Counterparty", "WorldAgent"] b))
    ∧ ((fresh_run sampleCtx askScript sampleCase 7 4 "sess-0001" (some 0)).run.status
          = .COMPLETED
        ∧ (fresh_run sampleCtx askScript sampleCase 7 4 "sess-0001" (some 0)).run.turns.map
            Turn.action
          = [overriddenAction "PROPOSE_OFFER", overriddenAction "COUNTER_OFFER",
              overriddenAction "PROPOSE_OFFER", overriddenAction "COUNTER_OFFER"]
        ∧ (fresh_run sampleCtx askScript sampleCase 7 4 "sess-0001" (some 0)).pending_question
          = none
        ∧ (fresh_run sampleCtx askScript sampleCase 7 4 "sess-0001" (some 0)).trace_bundle.pause_state
          = none) := by
  refine ⟨?_, ?_, by decide⟩
  · intro c script sugg i st b hodd hask hfail
    have hodd2 : i % 2 = 0 → False := by omega
    unfold turnStep
    simp only [hask, hodd, ↓reduceIte]
    rcases hfail with hq | hr
    · simp [hq]
    · have hst := QuestionBudget.reserve_state_of_not_ok b hr
      simp [hr, hst]
  · intro c script sugg i st b heven hask hfail
    have hodd : ¬ (i % 2 = 1) := by omega
    unfold turnStep
    simp only [hask, hodd, ↓reduceIte]
    rcases hfail with hq | hr
    · simp [hq]
    · have hst := QuestionBudget.reserve_state_of_not_ok b hr
      simp [hr, hst]

/-- Witness for C6 at turn 1 of `askScript` with an exhausted budget. -/
theorem C6_ask_info_downgrade_witness :
    ((1 : Nat) % 2 = 1
      ∧ (extract_action (askScript 1).call).1 = "ASK_INFO"
      ∧ (QuestionBudget.init (some 0) 0).reserve.ok = false)
    ∧ turnStep sampleCase askScript [] 1 initState (QuestionBudget.init (some 0) 0)
        = .cont (appendUserTurn [] 1 (askScript 1).call (overriddenAction "PROPOSE_OFFER")
            initState) ["UserProxy"] (QuestionBudget.init (some 0) 0) := by
  refine ⟨⟨by decide, by decide, by decide⟩, ?_⟩
  exact C6_ask_info_downgrade.1 sampleCase askScript [] 1 initState
    (QuestionBudget.init (some 0) 0) (by decide) (by decide) (Or.inr (by decide))

/-- Overwriting one outcome cannot break `noCounterVerdict` when the
overwritten slot holds a user turn. -/
theorem noCounterVerdict_set (ts : List Turn) (j : Nat) (o : Outcome)
    (h : noCounterVerdict ts)
    (hj : ∀ t, ts[j]? = some t → t.speaker = .USER) :
    noCounterVerdict (setTurnOutcome ts j o) := by
  induction ts generalizing j with
  | nil => intro t ht; simp [setTurnOutcome] at ht
  | cons hd tl ih =>
    cases j with
    | zero =>
      intro t ht hsp
      simp only [setTurnOutcome, List.mem_cons] at ht
      rcases ht with rfl | ht
      · exfalso
        have := hj hd (by simp)
        simp only at hsp
        rw [this] at hsp
        exact Speaker.noConfusion hsp
      · exact h t (List.mem_cons_of_mem hd ht) hsp
    | succ j =>
      intro t ht hsp
      simp only [setTurnOutcome, List.mem_cons] at ht
      rcases ht with rfl | ht
      · exact h t (List.mem_cons_self t tl) hsp
      · exact ih j (fun t' ht' => h t' (List.mem_cons_of_mem hd ht'))
          (fun t' ht' => hj t' (by simpa using ht')) t ht hsp

/-- `appendUserTurn` decomposed. -/
theorem appendUserTurn_decomp (sugg : List Suggestion) (i : Nat) (call : CallModel)
    (action : ActionObj) (st : EngineState) :
    (appendUserTurn sugg i call action st).turns
      = st.turns ++ [mkUserTurn sugg i call action st]
    ∧ (appendUserTurn sugg i call action st).round_user_turn_index
      = some st.turns.length := ⟨rfl, rfl⟩

/-- `appendUserTurn` preserves both loop invariants. -/
theorem appendUserTurn_inv (sugg : List Suggestion) (i : Nat) (call : CallModel)
    (action : ActionObj) (st : EngineState)
    (h1 : noCounterVerdict st.turns) :
    noCounterVerdict (appendUserTurn sugg i call action st).turns
    ∧ slotPointsAtUser (appendUserTurn sugg i call action st) := by
  constructor
  · intro t ht hsp
    rw [(appendUserTurn_decomp sugg i call action st).1] at ht
    simp only [List.mem_append, List.mem_singleton] at ht
    rcases ht with ht | rfl
    · exact h1 t ht hsp
    · exact Speaker.noConfusion hsp
  · intro j hj
    rw [(appendUserTurn_decomp sugg i call action st).2] at hj
    rw [Option.some.injEq] at hj
    subst hj
    refine ⟨mkUserTurn sugg i call action st, ?_, rfl⟩
    rw [(appendUserTurn_decomp sugg i call action st).1]
    rw [List.getElem?_append_right (le_refl _)]
    simp

/-- `appendCounterTurn` decomposed: backfilled front plus the new turn,
resolved outcome recorded, slot cleared. -/
theorem appendCounterTurn_decomp (c : CaseSnapshot) (sugg : List Suggestion) (i : Nat)
    (call : CallModel) (world : Option Outcome) (action : ActionObj) (st : EngineState) :
    (appendCounterTurn c sugg i call world action st).turns
      = (match st.round_user_turn_index with
          | some j => setTurnOutcome st.turns j (counterResolved c call world st)
          | none => st.turns)
        ++ [mkCounterTurn c sugg i call world action st]
    ∧ (appendCounterTurn c sugg i call world action st).latest_outcome
      = counterResolved c call world st
    ∧ (appendCounterTurn c sugg i call world action st).round_user_turn_index
      = none := ⟨rfl, rfl, rfl⟩

/-- The backfilled front of `appendCounterTurn` stays verdict-free. -/
theorem appendCounterTurn_front (c : CaseSnapshot) (call : CallModel)
    (world : Option Outcome) (st : EngineState)
    (h1 : noCounterVerdict st.turns) (h2 : slotPointsAtUser st) :
    noCounterVerdict
      (match st.round_user_turn_index with
        | some j => setTurnOutcome st.turns j (counterResolved c call world st)
        | none => st.turns) := by
  cases hr : st.round_user_turn_index with
  | none => exact h1
  | some j =>
    apply noCounterVerdict_set st.turns j _ h1
    intro t ht
    obtain ⟨t', ht', hsp'⟩ := h2 j hr
    rw [ht] at ht'
    rw [Option.some.injEq] at ht'
    rwa [ht']

/-- Every result of one loop iteration is a pause (state untouched), a
user turn appended, or a counterparty round appended, with the break
taken exactly when the resolved outcome is PASS or FAIL. -/
theorem turnStep_shape (c : CaseSnapshot) (script : Script) (sugg : List Suggestion)
    (i : Nat) (st : EngineState) (b : QuestionBudget) :
    (∃ q sp dtr b', turnStep c script sugg i st b = .pause q sp dtr b')
    ∨ (∃ action dtr b', turnStep c script sugg i st b
        = .cont (appendUserTurn sugg i (script i).call action st) dtr b')
    ∨ (∃ action dtr b',
        (turnStep c script sugg i st b
            = .cont (appendCounterTurn c sugg i (script i).call (script i).world action st) dtr b'
          ∧ ¬ ((appendCounterTurn c sugg i (script i).call (script i).world action st).latest_outcome
                  = .PASS
              ∨ (appendCounterTurn c sugg i (script i).call (script i).world action
                  st).latest_outcome = .FAIL))
        ∨ (turnStep c script sugg i st b
            = .brk (appendCounterTurn c sugg i (script i).call (script i).world action st) dtr b'
          ∧ ((appendCounterTurn c sugg i (script i).call (script i).world action st).latest_outcome
                = .PASS
            ∨ (appendCounterTurn c sugg i (script i).call (script i).world action
                st).latest_outcome = .FAIL))) := by
  unfold turnStep
  by_cases hodd : i % 2 = 1 <;> simp only [hodd, ↓reduceIte]
  · by_cases hask : (extract_action (script i).call).1 = "ASK_INFO" <;>
      simp only [hask, ↓reduceIte]
    · by_cases hq : extract_question_text (script i).call.text
          (extract_action (script i).call).2.1 = "" <;> simp only [hq, ↓reduceIte]
      · exact Or.inr (Or.inl ⟨_, _, _, rfl⟩)
      · by_cases hok : b.reserve.ok = true <;> simp only [hok, ↓reduceIte]
        · exact Or.inl ⟨_, _, _, _, rfl⟩
        · simp only [Bool.not_eq_true] at hok
          simp only [hok, Bool.false_eq_true, ↓reduceIte]
          exact Or.inr (Or.inl ⟨_, _, _, rfl⟩)
    · exact Or.inr (Or.inl ⟨_, _, _, rfl⟩)
  · by_cases hask : (extract_action (script i).call).1 = "ASK_INFO" <;>
      simp only [hask, ↓reduceIte]
    · by_cases hq : extract_question_text (script i).call.text
          (extract_action (script i).call).2.1 = "" <;> simp only [hq, ↓reduceIte]
      · by_cases hpf : (appendCounterTurn c sugg i (script i).call (script i).world
            (overriddenAction "COUNTER_OFFER") st).latest_outcome = .PASS
          ∨ (appendCounterTurn c sugg i (script i).call (script i).world
            (overriddenAction "COUNTER_OFFER") st).latest_outcome = .FAIL <;>
          simp only [hpf, ↓reduceIte]
        · exact Or.inr (Or.inr ⟨_, _, _, Or.inr ⟨rfl, hpf⟩⟩)
        · exact Or.inr (Or.inr ⟨_, _, _, Or.inl ⟨rfl, hpf⟩⟩)
      · by_cases hok : b.reserve.ok = true <;> simp only [hok, ↓reduceIte]
        · exact Or.inl ⟨_, _, _, _, rfl⟩
        · simp only [Bool.not_eq_true] at hok
          simp only [hok, Bool.false_eq_true, ↓reduceIte]
          by_cases hpf : (appendCounterTurn c sugg i (script i).call (script i).world
              (overriddenAction "COUNTER_OFFER") st).latest_outcome = .PASS
            ∨ (appendCounterTurn c sugg i (script i).call (script i).world
              (overriddenAction "COUNTER_OFFER") st).latest_outcome = .FAIL <;>
            simp only [hpf, ↓reduceIte]
          · exact Or.inr (Or.inr ⟨_, _, _, Or.inr ⟨rfl, hpf⟩⟩)
          · exact Or.inr (Or.inr ⟨_, _, _, Or.inl ⟨rfl, hpf⟩⟩)
    · by_cases hpf : (appendCounterTurn c sugg i (script i).call (script i).world
          (extract_action (script i).call).2.2 st).latest_outcome = .PASS
        ∨ (appendCounterTurn c sugg i (script i).call (script i).world
          (extract_action (script i).call).2.2 st).latest_outcome = .FAIL <;>
        simp only [hpf, ↓reduceIte]
      · exact Or.inr (Or.inr ⟨_, _, _, Or.inr ⟨rfl, hpf⟩⟩)
      · exact Or.inr (Or.inr ⟨_, _, _, Or.inl ⟨rfl, hpf⟩⟩)

/-- The loop invariant: as long as the loop keeps running, no
counterparty turn holds PASS/FAIL; when it `break`s, the final turn list
is a verdict-free front plus one final counterparty turn whose outcome
is PASS or FAIL and equals the run's latest outcome. -/
theorem go_earlyTermination (c : CaseSnapshot) (script : Script) (sugg : List Suggestion) :
    ∀ (idxs : List Nat) (st : EngineState) (tr : List String) (b : QuestionBudget),
      noCounterVerdict st.turns → slotPointsAtUser st →
      (match go c script sugg idxs st tr b with
       | .ended st' _ _ => noCounterVerdict st'.turns
       | .pausedAt st' _ _ _ _ _ _ => noCounterVerdict st'.turns
       | .broke st' _ _ =>
          ∃ front last, st'.turns = front ++ [last]
            ∧ noCounterVerdict front
            ∧ last.speaker = .COUNTERPARTY
            ∧ (last.outcome = .PASS ∨ last.outcome = .FAIL)
            ∧ st'.latest_outcome = last.outcome) := by
  intro idxs
  induction idxs with
  | nil =>
    intro st tr b h1 h2
    simpa [go] using h1
  | cons i rest ih =>
    intro st tr b h1 h2
    rw [go]
    rcases turnStep_shape c script sugg i st b with
      ⟨q, sp, dtr, b', heq⟩ | ⟨action, dtr, b', heq⟩ |
      ⟨action, dtr, b', ⟨heq, hnot⟩ | ⟨heq, hpf⟩⟩
    · rw [heq]
      exact h1
    · rw [heq]
      exact ih _ _ _ (appendUserTurn_inv sugg i _ action st h1).1
        (appendUserTurn_inv sugg i _ action st h1).2
    · rw [heq]
      apply ih
      · intro t ht hsp
        rw [(appendCounterTurn_decomp c sugg i (script i).call (script i).world
          action st).1] at ht
        simp only [List.mem_append, List.mem_singleton] at ht
        rcases ht with ht | rfl
        · exact appendCounterTurn_front c (script i).call (script i).world st h1 h2 t ht hsp
        · rw [(appendCounterTurn_decomp c sugg i (script i).call (script i).world
            action st).2.1] at hnot
          constructor <;> intro hx <;>
            exact hnot (by simp only [mkCounterTurn] at hx; simp [hx])
      · intro j hj
        rw [(appendCounterTurn_decomp c sugg i (script i).call (script i).world
          action st).2.2] at hj
        exact Option.noConfusion hj
    · rw [heq]
      refine ⟨_, mkCounterTurn c sugg i (script i).call (script i).world action st,
        (appendCounterTurn_decomp c sugg i (script i).call (script i).world action st).1,
        appendCounterTurn_front c (script i).call (script i).world st h1 h2, rfl, ?_, ?_⟩
      · rw [(appendCounterTurn_decomp c sugg i (script i).call (script i).world
          action st).2.1] at hpf
        exact hpf
      · exact (appendCounterTurn_decomp c sugg i (script i).call (script i).world
          action st).2.1

/-- C5: in every scheduled run, a counterparty turn whose resolved
outcome is PASS or FAIL (whether taken from the arbiter verdict or from
the fallback evaluator — the loop does not distinguish the two sources)
is the run's final turn: no further turn is generated, and the run
completes with exactly that outcome. -/
theorem C5_early_termination (ctx : EngineCtx) (script : Script) (c : CaseSnapshot)
    (seed mt : Int) (sid : String) (mq : Option Int) (t : Turn)
    (hmem : t ∈ (fresh_run ctx script c seed mt sid mq).run.turns)
    (hsp : t.speaker = .COUNTERPARTY)
    (hout : t.outcome = .PASS ∨ t.outcome = .FAIL) :
    (fresh_run ctx script c seed mt sid mq).run.turns.getLast? = some t
    ∧ (fresh_run ctx script c seed mt sid mq).run.outcome = t.outcome
    ∧ (fresh_run ctx script c seed mt sid mq).run.status = .COMPLETED := by
  have hinv := go_earlyTermination c script (chooseSuggestions ctx seed none)
    (runIndices 1 (effMaxTurns mt)) initState [] (QuestionBudget.init mq 0)
    (by intro x hx; simp [initState] at hx)
    (by intro j hj; simp [initState] at hj)
  unfold fresh_run run_single at hmem ⊢
  simp only [] at hmem ⊢
  cases hgo : go c script (chooseSuggestions ctx seed none)
      (runIndices 1 (effMaxTurns mt)) initState [] (QuestionBudget.init mq 0) with
  | pausedAt st' tr' b' ps q sp idx =>
    rw [hgo] at hinv hmem
    simp only [pausedResult] at hmem
    rcases hout with h | h
    · exact absurd h (hinv t hmem hsp).1
    · exact absurd h (hinv t hmem hsp).2
  | ended st' tr' b' =>
    rw [hgo] at hinv hmem
    simp only [completedResult] at hmem
    rcases hout with h | h
    · exact absurd h (hinv t hmem hsp).1
    · exact absurd h (hinv t hmem hsp).2
  | broke st' tr' b' =>
    rw [hgo] at hinv hmem
    simp only [completedResult] at hmem ⊢
    obtain ⟨front, last, he, hf, hs, ho, hl⟩ := hinv
    rw [he] at hmem
    simp only [List.mem_append, List.mem_singleton] at hmem
    rcases hmem with hmf | rfl
    · rcases hout with h | h
      · exact absurd h (hf t hmf hsp).1
      · exact absurd h (hf t hmf hsp).2
    · exact ⟨by rw [he]; simp, by rw [hl], trivial⟩

/-- Witness for C5 on a run whose arbiter passes at turn 2. -/
theorem C5_early_termination_witness :
    (fresh_run sampleCtx passAt2Script sampleCase 7 6 "sess-0001" (some 0)).run.turns.getLast?
      = some ((fresh_run sampleCtx passAt2Script sampleCase 7 6 "sess-0001"
          (some 0)).run.turns.getD 1 dummyTurn)
    ∧ (fresh_run sampleCtx passAt2Script sampleCase 7 6 "sess-0001" (some 0)).run.status
      = .COMPLETED := by
  have h := C5_early_termination sampleCtx passAt2Script sampleCase 7 6 "sess-0001" (some 0)
    ((fresh_run sampleCtx passAt2Script sampleCase 7 6 "sess-0001"
      (some 0)).run.turns.getD 1 dummyTurn)
    (by decide) (by decide) (by decide)
  exact ⟨h.1, h.2.2⟩

/-- Witness for C8 (amended) at the concrete stale resume. -/
theorem C8_amended_witness :
    (staleBundle.pause_state = some stalePause
      ∧ effMaxTurns 4 < stalePause.next_turn_index
      ∧ (resume_run sampleCtx neutralScript sampleCase staleRun staleBundle 4 2).run.turns
          = stalePause.turns)
    ∧ ((staleRun.max_questions ≤ (2 : Int))
      ∧ (QuestionBudget.init (some staleRun.max_questions) 2).reserve.ok = false) := by
  refine ⟨⟨by decide, by decide, ?_⟩, by decide, ?_⟩
  · exact (C8_amended.1 sampleCtx neutralScript sampleCase staleRun staleBundle 4 2
      stalePause (by decide) (by decide)).2.1
  · exact C8_amended.2 staleRun 2 (by decide)

/-- The `best`-keeping fold selects an element (or the seed) whose key is
greatest: it dominates the seed and every listed element. -/
theorem pickFold_spec (w : Issue → ℚ) :
    ∀ (l : List Issue) (acc : Issue),
      ((l.foldl (fun best j => if w best < w j then j else best) acc) = acc
        ∨ (l.foldl (fun best j => if w best < w j then j else best) acc) ∈ l)
      ∧ w acc ≤ w (l.foldl (fun best j => if w best < w j then j else best) acc)
      ∧ ∀ i ∈ l, w i ≤ w (l.foldl (fun best j => if w best < w j then j else best) acc) := by
  intro l
  induction l with
  | nil => exact fun acc => ⟨Or.inl rfl, le_refl _, by simp⟩
  | cons j l ih =>
    intro acc
    simp only [List.foldl_cons]
    obtain ⟨hmem, hacc, hall⟩ := ih (if w acc < w j then j else acc)
    have haj : w acc ≤ w (if w acc < w j then j else acc) := by
      split
      · exact le_of_lt (by assumption)
      · exact le_refl _
    have hjj : w j ≤ w (if w acc < w j then j else acc) := by
      split
      · exact le_refl _
      · exact le_of_not_lt (by assumption)
    refine ⟨?_, le_trans haj hacc, ?_⟩
    · rcases hmem with h | h
      · rw [h]
        split
        · exact Or.inr (List.mem_cons_self _ _)
        · exact Or.inl rfl
      · exact Or.inr (List.mem_cons_of_mem j h)
    · intro i hi
      rcases List.mem_cons.mp hi with rfl | hi
      · exact le_trans hjj hacc
      · exact hall i hi

/-- C9 counterexample: for a case whose highest-weight user issue
(`salary`, weight 0.9) has direction MAXIMIZE while the *first listed*
issue (`price`, weight 0.1) has direction MINIMIZE, the fallback
evaluator uses MINIMIZE — the first issue's direction — and returns PASS
on the utterance "I can do 50,000.", whereas the claim's prescription
(direction of the highest-weight issue) would return FAIL. -/
theorem C9_counterexample :
    (primaryIssue twoIssueCase).map Issue.direction = some .MAXIMIZE
    ∧ (desired_values twoIssueCase).2.2 = .MINIMIZE
    ∧ evaluate_outcome twoIssueCase [⟨.COUNTERPARTY, "I can do 50,000."⟩] = .PASS
    ∧ evaluate_outcome_text "I can do 50,000." (some (mkRat 100000 1))
        (some (mkRat 85000 1)) .MAXIMIZE = .FAIL := by
  decide

/-- C9 (amended): the fallback evaluator's *direction* is that of the
first-listed user issue (MAXIMIZE when there are none) — not the
highest-weight one; the highest-weight issue (leftmost maximal, matching
Python's stable descending sort) is only used to select the
target/reservation entries when the objective is an `OFFER_VECTOR` dict;
a `SINGLE_VALUE` objective is used as the single configured scalar,
belonging to no particular issue. -/
theorem C9_amended :
    (∀ c : CaseSnapshot,
        (desired_values c).2.2
          = (match issues_for_user c with
              | [] => IssueDirection.MAXIMIZE
              | i :: _ => i.direction))
    ∧ (∀ (c : CaseSnapshot) (p : Issue), primaryIssue c = some p →
        (p ∈ issues_for_user c
          ∧ ∀ i ∈ issues_for_user c,
              weightOf c.objectives.issue_weights i.issue_id
                ≤ weightOf c.objectives.issue_weights p.issue_id))
    ∧ (∀ c : CaseSnapshot,
        c.objectives.target.type = .SINGLE_VALUE →
          (desired_values c).1 = to_float_py c.objectives.target.value)
    ∧ (∀ (c : CaseSnapshot) (es : List (String × PyScalar)),
        c.objectives.target.type = .OFFER_VECTOR →
        c.objectives.target.value = .vdict es →
          (desired_values c).1
            = (match primary_issue_id c with
                | some k =>
                  (match es.lookup k with
                    | some s => to_float_scalar s
                    | none => none)
                | none => none)) := by
  refine ⟨fun c => rfl, ?_, ?_, ?_⟩
  · intro c p hp
    unfold primaryIssue at hp
    cases hiss : issues_for_user c with
    | nil => rw [hiss] at hp; exact Option.noConfusion hp
    | cons i rest =>
      rw [hiss] at hp
      rw [Option.some.injEq] at hp
      have hsp := pickFold_spec (fun x => weightOf c.objectives.issue_weights x.issue_id) rest i
      rw [hp] at hsp
      constructor
      · rcases hsp.1 with h | h
        · rw [h]; exact List.mem_cons_self _ _
        · exact List.mem_cons_of_mem i h
      · intro x hx
        rcases List.mem_cons.mp hx with rfl | hx
        · exact hsp.2.1
        · exact hsp.2.2 x hx
  · intro c htype
    unfold desired_values desired_of
    simp only [htype, ↓reduceIte]
  · intro c es htype hval
    have hne : ¬ (c.objectives.target.type = ObjectiveType.SINGLE_VALUE) := by
      rw [htype]; intro h; exact ObjectiveType.noConfusion h
    unfold desired_values desired_of
    simp only [hne, ↓reduceIte, hval]

/-- Witness for C9 (amended) at the two-issue case. -/
theorem C9_amended_witness :
    (primaryIssue twoIssueCase = some ⟨"salary", .MAXIMIZE⟩
      ∧ (⟨"salary", .MAXIMIZE⟩ : Issue) ∈ issues_for_user twoIssueCase)
    ∧ (twoIssueCase.objectives.target.type = .SINGLE_VALUE
      ∧ (desired_values twoIssueCase).1 = to_float_py twoIssueCase.objectives.target.value) := by
  refine ⟨⟨by decide, ?_⟩, by decide, ?_⟩
  · exact (C9_amended.2.1 twoIssueCase ⟨"salary", .MAXIMIZE⟩ (by decide)).1
  · exact C9_amended.2.2.1 twoIssueCase (by decide)

/-- `_build_call` marks both exception shapes as FAIL and substitutes
the fallback dict verbatim. -/
theorem build_call_fail (llm : LLMOutcome) (fb : ParsedDict)
    (h : (∃ rawq m, llm = .errResponse rawq m) ∨ (∃ m, llm = .errOther m)) :
    (build_call llm fb).validation_result.status = "FAIL"
    ∧ (build_call llm fb).parsed_output = fb := by
  rcases h with ⟨rawq, m, rfl⟩ | ⟨m, rfl⟩
  · exact ⟨rfl, rfl⟩
  · exact ⟨rfl, rfl⟩

/-- C7: whenever the underlying LLM call raises (either exception shape)
or the call's validation status is FAIL, `CounterpartyAgent.roleplay`
returns the caller-supplied fallback message as the message text, the
fallback payload's action verbatim as the action, an empty
used-strategies list, and a call record whose validation status is FAIL
(copied as-is into the engine's trace entry).  Both `_build_call` and
`roleplay` are total functions of the modelled LLM behaviour: no failure
escapes as an exception, so the simulation continues. -/
theorem C7_agent_fallback (llm : LLMOutcome) (fallback_message : String)
    (h : (∃ rawq m, llm = .errResponse rawq m) ∨ (∃ m, llm = .errOther m)
        ∨ (build_call llm (counterpartyFallbackPayload fallback_message)).validation_result.status
            = "FAIL") :
    (counterparty_roleplay llm fallback_message).1 = some fallback_message
    ∧ (counterparty_roleplay llm fallback_message).2.parsed_output.message_text
        = some fallback_message
    ∧ (counterparty_roleplay llm fallback_message).2.parsed_output.action
        = (counterpartyFallbackPayload fallback_message).action
    ∧ (counterparty_roleplay llm fallback_message).2.parsed_output.used_strategies = some []
    ∧ (counterparty_roleplay llm fallback_message).2.validation_result.status = "FAIL" := by
  have hf : (build_call llm (counterpartyFallbackPayload fallback_message)).validation_result.status
      = "FAIL" := by
    rcases h with h | h | h
    · exact (build_call_fail llm _ (Or.inl h)).1
    · exact (build_call_fail llm _ (Or.inr h)).1
    · exact h
  unfold counterparty_roleplay
  simp [hf]

/-- Witness for C7 at a concrete failing call. -/
theorem C7_agent_fallback_witness :
    (counterparty_roleplay (.errOther "connection reset") "Here is a realistic counteroffer.").1
      = some "Here is a realistic counteroffer."
    ∧ (counterparty_roleplay (.errOther "connection reset")
        "Here is a realistic counteroffer.").2.validation_result.status = "FAIL" := by
  have h := C7_agent_fallback (.errOther "connection reset")
    "Here is a realistic counteroffer." (Or.inr (Or.inl ⟨"connection reset", rfl⟩))
  exact ⟨h.1, h.2.2.2.2⟩

/-- C3 counterexample: the claim's "Turns 1..k are identical to the
pre-pause Turns" fails when the pause interrupts a round after its user
turn.  `c3Paused` pauses on counterparty turn 2 with turn 1 captured
carrying outcome NEUTRAL and the pending-outcome slot pointing at it; on
resume, the counterparty's answer resolves (via the fallback evaluator)
to PASS and is backfilled onto captured turn 1, so the resumed run's
first turn differs from the captured first turn. -/
theorem C3_counterexample :
    c3Paused.run.status = .PAUSED
    ∧ ((c3Paused.trace_bundle.pause_state.getD dummyPause).turns.getD 0 dummyTurn).outcome
        = .NEUTRAL
    ∧ (c3Paused.trace_bundle.pause_state.getD dummyPause).round_user_turn_index = some 0
    ∧ (c3Resumed.run.turns.getD 0 dummyTurn).outcome = .PASS
    ∧ ¬ (c3Resumed.run.turns.getD 0 dummyTurn
          = (c3Paused.trace_bundle.pause_state.getD dummyPause).turns.getD 0 dummyTurn) := by
  decide

/-- `reserve` never changes `max_questions`. -/
theorem QuestionBudget.reserve_max (b : QuestionBudget) :
    b.reserve.state.max_questions = b.max_questions := by
  unfold QuestionBudget.reserve
  split
  · rfl
  · split <;> rfl

/-- One loop iteration only reads the script at its own index. -/
theorem turnStep_congr (c : CaseSnapshot) (s1 s2 : Script) (sugg : List Suggestion)
    (i : Nat) (st : EngineState) (b : QuestionBudget) (h : s1 i = s2 i) :
    turnStep c s1 sugg i st b = turnStep c s2 sugg i st b := by
  unfold turnStep
  rw [h]

/-- The loop only reads the script at the indices it visits. -/
theorem go_congr (c : CaseSnapshot) (s1 s2 : Script) (sugg : List Suggestion)
    (idxs : List Nat) :
    ∀ (st : EngineState) (tr : List String) (b : QuestionBudget),
      (∀ i ∈ idxs, s1 i = s2 i) →
      go c s1 sugg idxs st tr b = go c s2 sugg idxs st tr b := by
  induction idxs with
  | nil => intro st tr b _; rfl
  | cons i rest ih =>
    intro st tr b h
    rw [go, go, turnStep_congr c s1 s2 sugg i st b (h i (List.mem_cons_self i rest))]
    cases turnStep c s2 sugg i st b with
    | pause q sp dtr b' => rfl
    | brk st' dtr b' => rfl
    | cont st' dtr b' => exact ih st' (tr ++ dtr) b' (fun j hj => h j (List.mem_cons_of_mem i hj))

/-- Splitting the index list: the second half runs only when the first
half neither paused nor broke. -/
theorem go_append (c : CaseSnapshot) (script : Script) (sugg : List Suggestion)
    (l1 l2 : List Nat) :
    ∀ (st : EngineState) (tr : List String) (b : QuestionBudget),
      go c script sugg (l1 ++ l2) st tr b
        = (match go c script sugg l1 st tr b with
           | .ended st' tr' b' => go c script sugg l2 st' tr' b'
           | out => out) := by
  induction l1 with
  | nil => intro st tr b; rfl
  | cons i rest ih =>
    intro st tr b
    rw [List.cons_append, go, go]
    cases turnStep c script sugg i st b with
    | pause q sp dtr b' => rfl
    | brk st' dtr b' => rfl
    | cont st' dtr b' => exact ih st' (tr ++ dtr) b'

/-- The pausing iteration characterised: `ASK_INFO` with a non-empty
question and a successful reservation. -/
theorem turnStep_pause_char (c : CaseSnapshot) (script : Script) (sugg : List Suggestion)
    (i : Nat) (st : EngineState) (b : QuestionBudget)
    (hask : (extract_action (script i).call).1 = "ASK_INFO")
    (hq : extract_question_text (script i).call.text (extract_action (script i).call).2.1 ≠ "")
    (hok : b.reserve.ok = true) :
    turnStep c script sugg i st b
      = .pause (extract_question_text (script i).call.text (extract_action (script i).call).2.1)
          (if i % 2 = 1 then .USER else .COUNTERPARTY)
          [if i % 2 = 1 then "UserProxy" else "Counterparty"]
          b.reserve.state := by
  unfold turnStep
  by_cases hodd : i % 2 = 1 <;> simp [hodd, hask, hq, hok]

/-- A captured (hence regenerated-iff-empty) suggestion list that came
from the sampler itself is returned unchanged. -/
theorem chooseSuggestions_captured (ctx : EngineCtx) (seed : Int) :
    chooseSuggestions ctx seed (some (ctx.regen seed)) = ctx.regen seed := by
  show (if (ctx.regen seed).isEmpty then ctx.regen seed else ctx.regen seed) = ctx.regen seed
  split <;> rfl

/-- `shiftTraces` composes along list append. -/
theorem shiftTraces_append (t1 t2 : List String) (out : LoopOut) :
    shiftTraces (t1 ++ t2) out = shiftTraces t1 (shiftTraces t2 out) := by
  cases out <;> simp [shiftTraces, List.append_assoc]

/-- `shiftTraces` only touches traces. -/
theorem shiftTraces_proj (t : List String) (out : LoopOut) :
    outState (shiftTraces t out) = outState out
    ∧ statusOf (shiftTraces t out) = statusOf out
    ∧ outBudget (shiftTraces t out) = outBudget out := by
  cases out <;> exact ⟨rfl, rfl, rfl⟩

/-- The loop never reads the incoming trace accumulator: running with
accumulator `tr` is running with an empty accumulator and prefixing `tr`
to every trace list of the result. -/
theorem go_traces (c : CaseSnapshot) (script : Script) (sugg : List Suggestion)
    (idxs : List Nat) :
    ∀ (st : EngineState) (tr : List String) (b : QuestionBudget),
      go c script sugg idxs st tr b = shiftTraces tr (go c script sugg idxs st [] b) := by
  induction idxs with
  | nil => intro st tr b; simp [go, shiftTraces]
  | cons i rest ih =>
    intro st tr b
    rw [go, go]
    cases turnStep c script sugg i st b with
    | pause q sp dtr b' => simp [shiftTraces]
    | brk st' dtr b' => simp [shiftTraces]
    | cont st' dtr b' =>
      show go c script sugg rest st' (tr ++ dtr) b'
          = shiftTraces tr (go c script sugg rest st' ([] ++ dtr) b')
      rw [ih st' (tr ++ dtr) b', ih st' ([] ++ dtr) b', List.nil_append,
        shiftTraces_append]

/-- Backfilling the slot that points at the just-appended element only
rewrites that element's outcome. -/
theorem setTurnOutcome_append_len (ts : List Turn) (u : Turn) (o : Outcome) :
    setTurnOutcome (ts ++ [u]) ts.length o = ts ++ [{ u with outcome := o }] := by
  induction ts with
  | nil => rfl
  | cons h t ih => simp [setTurnOutcome, ih]

/-- An outcome update keeps every other field. -/
theorem setOutcome_fields (u : Turn) (o : Outcome) :
    ({ u with outcome := o } : Turn).turn_index = u.turn_index
    ∧ ({ u with outcome := o } : Turn).strategy_suggestions = u.strategy_suggestions :=
  ⟨rfl, rfl⟩

/-- `mkUserTurn` field projections. -/
theorem mkUserTurn_fields (sugg : List Suggestion) (i : Nat) (call : CallModel)
    (action : ActionObj) (st : EngineState) :
    (mkUserTurn sugg i call action st).turn_index = i
    ∧ (mkUserTurn sugg i call action st).strategy_suggestions = sugg :=
  ⟨rfl, rfl⟩

/-- `mkCounterTurn` field projections. -/
theorem mkCounterTurn_fields (c : CaseSnapshot) (sugg : List Suggestion) (i : Nat)
    (call : CallModel) (world : Option Outcome) (action : ActionObj) (st : EngineState) :
    (mkCounterTurn c sugg i call world action st).turn_index = i
    ∧ (mkCounterTurn c sugg i call world action st).strategy_suggestions = sugg :=
  ⟨rfl, rfl⟩

/-- Whatever the loop does with the indices `s, s+1, ..., s+n-1`, the
resulting turn list is the incoming one (modulo one possible outcome
backfill at the recorded pending slot) followed by a block of new turns
whose indices are consecutive from `s` and which all carry the loop's
suggestion list. -/
theorem go_turns_shape (c : CaseSnapshot) (script : Script) (sugg : List Suggestion) :
    ∀ (n s : Nat) (st : EngineState) (tr : List String) (b : QuestionBudget),
      ∃ front tail,
        (outState (go c script sugg (List.range' s n) st tr b)).turns = front ++ tail
        ∧ (front = st.turns
            ∨ ∃ j o, st.round_user_turn_index = some j ∧ front = setTurnOutcome st.turns j o)
        ∧ tail.map Turn.turn_index = List.range' s tail.length
        ∧ ∀ t ∈ tail, t.strategy_suggestions = sugg := by
  intro n
  induction n with
  | zero =>
    intro s st tr b
    exact ⟨st.turns, [], by simp [go, outState], Or.inl rfl, rfl, by simp⟩
  | succ n ih =>
    intro s st tr b
    rw [List.range'_succ]
    rcases turnStep_shape c script sugg s st b with
      ⟨q, sp, dtr, b', heq⟩ | ⟨action, dtr, b', heq⟩ |
      ⟨action, dtr, b', ⟨heq, hnot⟩ | ⟨heq, hpf⟩⟩
    · rw [go, heq]
      exact ⟨st.turns, [], by simp [outState], Or.inl rfl, rfl, by simp⟩
    · rw [go, heq]
      obtain ⟨front, tail, hout, hfront, hidx, hsugg⟩ := ih (s + 1)
        (appendUserTurn sugg s (script s).call action st) (tr ++ dtr) b'
      rcases hfront with hfront | ⟨j, o, hj, hfront⟩
      · refine ⟨st.turns, mkUserTurn sugg s (script s).call action st :: tail, ?_,
          Or.inl rfl, ?_, ?_⟩
        · rw [hout, hfront, (appendUserTurn_decomp sugg s (script s).call action st).1]
          simp
        · simp only [List.map_cons, hidx, List.length_cons,
            (mkUserTurn_fields sugg s (script s).call action st).1]
          rw [List.range'_succ]
        · intro t ht
          rcases List.mem_cons.mp ht with rfl | ht
          · exact (mkUserTurn_fields sugg s (script s).call action st).2
          · exact hsugg t ht
      · rw [(appendUserTurn_decomp sugg s (script s).call action st).2] at hj
        rw [Option.some.injEq] at hj
        subst hj
        rw [(appendUserTurn_decomp sugg s (script s).call action st).1,
          setTurnOutcome_append_len] at hfront
        refine ⟨st.turns,
          { mkUserTurn sugg s (script s).call action st with outcome := o } :: tail, ?_,
          Or.inl rfl, ?_, ?_⟩
        · rw [hout, hfront]
          simp
        · simp only [List.map_cons, hidx, List.length_cons,
            (setOutcome_fields (mkUserTurn sugg s (script s).call action st) o).1,
            (mkUserTurn_fields sugg s (script s).call action st).1]
          rw [List.range'_succ]
        · intro t ht
          rcases List.mem_cons.mp ht with rfl | ht
          · rw [(setOutcome_fields (mkUserTurn sugg s (script s).call action st) o).2]
            exact (mkUserTurn_fields sugg s (script s).call action st).2
          · exact hsugg t ht
    · rw [go, heq]
      obtain ⟨front, tail, hout, hfront, hidx, hsugg⟩ := ih (s + 1)
        (appendCounterTurn c sugg s (script s).call (script s).world action st) (tr ++ dtr) b'
      have hdec := (appendCounterTurn_decomp c sugg s (script s).call (script s).world
        action st).1
      have hrnd := (appendCounterTurn_decomp c sugg s (script s).call (script s).world
        action st).2.2
      rcases hfront with hfront | ⟨j, o, hj, hfront⟩
      · cases hr : st.round_user_turn_index with
        | none =>
          simp only [hr] at hdec
          refine ⟨st.turns,
            mkCounterTurn c sugg s (script s).call (script s).world action st :: tail, ?_,
            Or.inl rfl, ?_, ?_⟩
          · rw [hout, hfront, hdec]
            simp
          · simp only [List.map_cons, hidx, List.length_cons,
              (mkCounterTurn_fields c sugg s (script s).call (script s).world action st).1]
            rw [List.range'_succ]
          · intro t ht
            rcases List.mem_cons.mp ht with rfl | ht
            · exact (mkCounterTurn_fields c sugg s (script s).call (script s).world
                action st).2
            · exact hsugg t ht
        | some j =>
          simp only [hr] at hdec
          refine ⟨setTurnOutcome st.turns j
              (counterResolved c (script s).call (script s).world st),
            mkCounterTurn c sugg s (script s).call (script s).world action st :: tail, ?_,
            Or.inr ⟨j, _, rfl, rfl⟩, ?_, ?_⟩
          · rw [hout, hfront, hdec]
            simp
          · simp only [List.map_cons, hidx, List.length_cons,
              (mkCounterTurn_fields c sugg s (script s).call (script s).world action st).1]
            rw [List.range'_succ]
          · intro t ht
            rcases List.mem_cons.mp ht with rfl | ht
            · exact (mkCounterTurn_fields c sugg s (script s).call (script s).world
                action st).2
            · exact hsugg t ht
      · rw [hrnd] at hj
        exact Option.noConfusion hj
    · rw [go, heq]
      have hdec := (appendCounterTurn_decomp c sugg s (script s).call (script s).world
        action st).1
      cases hr : st.round_user_turn_index with
      | none =>
        simp only [hr] at hdec
        refine ⟨st.turns,
          [mkCounterTurn c sugg s (script s).call (script s).world action st], ?_,
          Or.inl rfl, ?_, ?_⟩
        · exact hdec
        · simp [(mkCounterTurn_fields c sugg s (script s).call (script s).world action st).1]
        · intro t ht
          rw [List.mem_singleton] at ht
          subst ht
          exact (mkCounterTurn_fields c sugg s (script s).call (script s).world action st).2
      | some j =>
        simp only [hr] at hdec
        refine ⟨setTurnOutcome st.turns j
            (counterResolved c (script s).call (script s).world st),
          [mkCounterTurn c sugg s (script s).call (script s).world action st], ?_,
          Or.inr ⟨j, _, rfl, rfl⟩, ?_, ?_⟩
        · exact hdec
        · simp [(mkCounterTurn_fields c sugg s (script s).call (script s).world action st).1]
        · intro t ht
          rw [List.mem_singleton] at ht
          subst ht
          exact (mkCounterTurn_fields c sugg s (script s).call (script s).world action st).2

/-- The assembled result's behavioural fields are projections of the
loop result (the trace accumulator never reaches the run record). -/
theorem run_single_eq (ctx : EngineCtx) (script : Script) (c : CaseSnapshot)
    (seed mt : Int) (sid : String) (b0 : QuestionBudget) (rs : Option PauseState)
    (runq : Option String) (suggq : Option (List Suggestion)) :
    (run_single ctx script c seed mt sid b0 rs runq suggq).run.turns
        = (outState (go c script (chooseSuggestions ctx seed suggq)
            (runIndices (match rs with | some ps => ps.next_turn_index | none => 1)
              (effMaxTurns mt))
            (match rs with
              | some ps => ⟨ps.conversation, ps.turns, ps.latest_outcome,
                  ps.round_user_turn_index⟩
              | none => initState)
            (match rs with | some ps => ps.agent_call_traces | none => []) b0)).turns
    ∧ (run_single ctx script c seed mt sid b0 rs runq suggq).run.outcome
        = (outState (go c script (chooseSuggestions ctx seed suggq)
            (runIndices (match rs with | some ps => ps.next_turn_index | none => 1)
              (effMaxTurns mt))
            (match rs with
              | some ps => ⟨ps.conversation, ps.turns, ps.latest_outcome,
                  ps.round_user_turn_index⟩
              | none => initState)
            (match rs with | some ps => ps.agent_call_traces | none => []) b0)).latest_outcome
    ∧ (run_single ctx script c seed mt sid b0 rs runq suggq).run.status
        = statusOf (go c script (chooseSuggestions ctx seed suggq)
            (runIndices (match rs with | some ps => ps.next_turn_index | none => 1)
              (effMaxTurns mt))
            (match rs with
              | some ps => ⟨ps.conversation, ps.turns, ps.latest_outcome,
                  ps.round_user_turn_index⟩
              | none => initState)
            (match rs with | some ps => ps.agent_call_traces | none => []) b0)
    ∧ (run_single ctx script c seed mt sid b0 rs runq suggq).run.user_utility
        = utility_from_outcome
            ((outState (go c script (chooseSuggestions ctx seed suggq)
              (runIndices (match rs with | some ps => ps.next_turn_index | none => 1)
                (effMaxTurns mt))
              (match rs with
                | some ps => ⟨ps.conversation, ps.turns, ps.latest_outcome,
                    ps.round_user_turn_index⟩
                | none => initState)
              (match rs with | some ps => ps.agent_call_traces | none => [])
              b0)).latest_outcome)
    ∧ (run_single ctx script c seed mt sid b0 rs runq suggq).run.max_questions
        = (outBudget (go c script (chooseSuggestions ctx seed suggq)
            (runIndices (match rs with | some ps => ps.next_turn_index | none => 1)
              (effMaxTurns mt))
            (match rs with
              | some ps => ⟨ps.conversation, ps.turns, ps.latest_outcome,
                  ps.round_user_turn_index⟩
              | none => initState)
            (match rs with | some ps => ps.agent_call_traces | none => []) b0)).max_questions
    ∧ (run_single ctx script c seed mt sid b0 rs runq suggq).trace_bundle.strategy_suggestions
        = chooseSuggestions ctx seed suggq := by
  unfold run_single
  cases hgo : go c script (chooseSuggestions ctx seed suggq)
      (runIndices (match rs with | some ps => ps.next_turn_index | none => 1)
        (effMaxTurns mt))
      (match rs with
        | some ps => ⟨ps.conversation, ps.turns, ps.latest_outcome, ps.round_user_turn_index⟩
        | none => initState)
      (match rs with | some ps => ps.agent_call_traces | none => []) b0 with
  | pausedAt st tr b ps q sp idx =>
    simp [hgo, pausedResult, outState, statusOf, outBudget]
  | broke st tr b =>
    simp [hgo, completedResult, outState, statusOf, outBudget]
  | ended st tr b =>
    simp [hgo, completedResult, outState, statusOf, outBudget]

/-- The assembled result's identity fields, and the stored pause state. -/
theorem run_single_idents (ctx : EngineCtx) (script : Script) (c : CaseSnapshot)
    (seed mt : Int) (sid : String) (b0 : QuestionBudget) (rs : Option PauseState)
    (runq : Option String) (suggq : Option (List Suggestion)) :
    (run_single ctx script c seed mt sid b0 rs runq suggq).run.session_id = sid
    ∧ (run_single ctx script c seed mt sid b0 rs runq suggq).run.seed = seed
    ∧ (run_single ctx script c seed mt sid b0 rs runq suggq).run.run_id
        = runq.getD ctx.fresh_run_id
    ∧ (run_single ctx script c seed mt sid b0 rs runq suggq).trace_bundle.pause_state
        = pauseStateOf (go c script (chooseSuggestions ctx seed suggq)
            (runIndices (match rs with | some ps => ps.next_turn_index | none => 1)
              (effMaxTurns mt))
            (match rs with
              | some ps => ⟨ps.conversation, ps.turns, ps.latest_outcome,
                  ps.round_user_turn_index⟩
              | none => initState)
            (match rs with | some ps => ps.agent_call_traces | none => []) b0) := by
  unfold run_single
  cases hgo : go c script (chooseSuggestions ctx seed suggq)
      (runIndices (match rs with | some ps => ps.next_turn_index | none => 1)
        (effMaxTurns mt))
      (match rs with
        | some ps => ⟨ps.conversation, ps.turns, ps.latest_outcome, ps.round_user_turn_index⟩
        | none => initState)
      (match rs with | some ps => ps.agent_call_traces | none => []) b0 with
  | pausedAt st tr b ps q sp idx =>
    simp [hgo, pausedResult, pauseStateOf]
  | broke st tr b =>
    simp [hgo, completedResult, pauseStateOf]
  | ended st tr b =>
    simp [hgo, completedResult, pauseStateOf]

/-- C3 (amended): consider a fresh run under script `A` that, having
completed the turns before `p` without pausing or breaking, pauses at
turn `p` (an `ASK_INFO` with a non-empty question and a successful
reservation).  Then: (1) the paused result captures the pre-pause engine
state verbatim (turn list, conversation, traces plus the pausing agent's
entry, last outcome, pending slot, next index `p`, and the
strategy-suggestion list); (2) resuming it under any script `B` agreeing
with `A` before `p` restarts the loop exactly at `p`: the resumed run's
turns are the captured turns — unchanged except that a captured
pending-outcome slot (a pause that split a round) may have its outcome
backfilled, exactly as an unpaused run would — followed by new turns
whose indices continue consecutively from `p` without repetition or gap,
all carrying the captured suggestion list; (3) the resumed budget starts
with `used` equal to the caller-supplied count; (4) the suggestion list
is the captured one, not regenerated; (5) when the caller-supplied
budget state reconstructs the pre-pause budget, the resumed run's turns,
outcome, status and utility equal those of the corresponding unpaused
run under `B`. -/
theorem C3_resume_amended
    (ctx : EngineCtx) (A B : Script) (c : CaseSnapshot) (seed mt : Int)
    (sid : String) (mq : Option Int) (p : Nat) (stPre : EngineState)
    (trPre : List String) (bPre : QuestionBudget) (bu : Int)
    (hp1 : 1 ≤ p) (hp2 : p ≤ effMaxTurns mt)
    (hpre : go c A (ctx.regen seed) (List.range' 1 (p - 1)) initState []
        (QuestionBudget.init mq 0) = .ended stPre trPre bPre)
    (hask : (extract_action (A p).call).1 = "ASK_INFO")
    (hq : ¬ (extract_question_text (A p).call.text (extract_action (A p).call).2.1 = ""))
    (hok : bPre.reserve.ok = true)
    (hagree : ∀ i, i < p → B i = A i)
    (hsid : ¬ (sid = "")) :
    (fresh_run ctx A c seed mt sid mq).run.status = .PAUSED
    ∧ (fresh_run ctx A c seed mt sid mq).trace_bundle.pause_state
        = some ⟨stPre.conversation, stPre.turns,
            trPre ++ [if p % 2 = 1 then "UserProxy" else "Counterparty"],
            stPre.latest_outcome, stPre.round_user_turn_index, p, ctx.regen seed⟩
    ∧ (∃ tail,
        ((resume_run ctx B c (fresh_run ctx A c seed mt sid mq).run
              (fresh_run ctx A c seed mt sid mq).trace_bundle mt bu).run.turns
            = stPre.turns ++ tail
          ∨ ∃ j o, stPre.round_user_turn_index = some j
              ∧ (resume_run ctx B c (fresh_run ctx A c seed mt sid mq).run
                  (fresh_run ctx A c seed mt sid mq).trace_bundle mt bu).run.turns
                = setTurnOutcome stPre.turns j o ++ tail)
        ∧ tail.map Turn.turn_index = List.range' p tail.length
        ∧ ∀ t ∈ tail, t.strategy_suggestions = ctx.regen seed)
    ∧ (0 ≤ bu →
        (QuestionBudget.init
          (some (fresh_run ctx A c seed mt sid mq).run.max_questions) bu).used = bu)
    ∧ (resume_run ctx B c (fresh_run ctx A c seed mt sid mq).run
        (fresh_run ctx A c seed mt sid mq).trace_bundle mt bu).trace_bundle.strategy_suggestions
        = ctx.regen seed
    ∧ (QuestionBudget.init (some (fresh_run ctx A c seed mt sid mq).run.max_questions) bu
          = bPre →
        runBehavior (resume_run ctx B c (fresh_run ctx A c seed mt sid mq).run
            (fresh_run ctx A c seed mt sid mq).trace_bundle mt bu).run
          = runBehavior (fresh_run ctx B c seed mt sid mq).run) := by
  have hcs0 : chooseSuggestions ctx seed none = ctx.regen seed := rfl
  have hcs1 : chooseSuggestions ctx seed (some (ctx.regen seed)) = ctx.regen seed :=
    chooseSuggestions_captured ctx seed
  have hsplit : List.range' 1 (effMaxTurns mt)
      = List.range' 1 (p - 1) ++ List.range' p (effMaxTurns mt + 1 - p) := by
    have h := List.range'_append_1 1 (p - 1) (effMaxTurns mt + 1 - p)
    rw [show 1 + (p - 1) = p by omega] at h
    rw [show effMaxTurns mt + 1 - p + (p - 1) = effMaxTurns mt by omega] at h
    exact h.symm
  have hrange1 : runIndices 1 (effMaxTurns mt) = List.range' 1 (effMaxTurns mt) := rfl
  have hstep : effMaxTurns mt + 1 - p = (effMaxTurns mt - p) + 1 := by omega
  have hpauseA : go c A (ctx.regen seed) (List.range' p (effMaxTurns mt + 1 - p)) stPre
      trPre bPre
      = .pausedAt stPre (trPre ++ [if p % 2 = 1 then "UserProxy" else "Counterparty"])
          bPre.reserve.state
          ⟨stPre.conversation, stPre.turns,
            trPre ++ [if p % 2 = 1 then "UserProxy" else "Counterparty"],
            stPre.latest_outcome, stPre.round_user_turn_index, p, ctx.regen seed⟩
          (extract_question_text (A p).call.text (extract_action (A p).call).2.1)
          (if p % 2 = 1 then Speaker.USER else Speaker.COUNTERPARTY) p := by
    rw [hstep, List.range'_succ, go,
      turnStep_pause_char c A (ctx.regen seed) p stPre bPre hask hq hok]
  have hgoA : go c A (chooseSuggestions ctx seed none) (runIndices 1 (effMaxTurns mt))
      initState [] (QuestionBudget.init mq 0)
      = .pausedAt stPre (trPre ++ [if p % 2 = 1 then "UserProxy" else "Counterparty"])
          bPre.reserve.state
          ⟨stPre.conversation, stPre.turns,
            trPre ++ [if p % 2 = 1 then "UserProxy" else "Counterparty"],
            stPre.latest_outcome, stPre.round_user_turn_index, p, ctx.regen seed⟩
          (extract_question_text (A p).call.text (extract_action (A p).call).2.1)
          (if p % 2 = 1 then Speaker.USER else Speaker.COUNTERPARTY) p := by
    rw [hcs0, hrange1, hsplit, go_append, hpre]
    exact hpauseA
  have hfrA : fresh_run ctx A c seed mt sid mq
      = run_single ctx A c seed mt sid (QuestionBudget.init mq 0) none none none := rfl
  have hAeq := run_single_eq ctx A c seed mt sid (QuestionBudget.init mq 0) none none none
  have hAid := run_single_idents ctx A c seed mt sid (QuestionBudget.init mq 0) none none none
  simp only [] at hAeq hAid
  rw [hgoA] at hAeq hAid
  -- (1) status and captured pause state
  have hstatusA : (fresh_run ctx A c seed mt sid mq).run.status = .PAUSED := by
    rw [hfrA, hAeq.2.2.1]
    rfl
  have hpsA : (fresh_run ctx A c seed mt sid mq).trace_bundle.pause_state
      = some ⟨stPre.conversation, stPre.turns,
          trPre ++ [if p % 2 = 1 then "UserProxy" else "Counterparty"],
          stPre.latest_outcome, stPre.round_user_turn_index, p, ctx.regen seed⟩ := by
    rw [hfrA, hAid.2.2.2]
    rfl
  have hseedA : (fresh_run ctx A c seed mt sid mq).run.seed = seed := by
    rw [hfrA]; exact hAid.2.1
  have hsessA : (fresh_run ctx A c seed mt sid mq).run.session_id = sid := by
    rw [hfrA]; exact hAid.1
  have hridA : (fresh_run ctx A c seed mt sid mq).run.run_id = ctx.fresh_run_id := by
    rw [hfrA, hAid.2.2.1]
    rfl
  have hsugA : (fresh_run ctx A c seed mt sid mq).trace_bundle.strategy_suggestions
      = ctx.regen seed := by
    rw [hfrA, hAeq.2.2.2.2.2, hcs0]
  -- the resumed run in `run_single` form
  have hres : resume_run ctx B c (fresh_run ctx A c seed mt sid mq).run
      (fresh_run ctx A c seed mt sid mq).trace_bundle mt bu
      = run_single ctx B c seed mt sid
          (QuestionBudget.init
            (some (fresh_run ctx A c seed mt sid mq).run.max_questions) bu)
          (some ⟨stPre.conversation, stPre.turns,
            trPre ++ [if p % 2 = 1 then "UserProxy" else "Counterparty"],
            stPre.latest_outcome, stPre.round_user_turn_index, p, ctx.regen seed⟩)
          (some ctx.fresh_run_id) (some (ctx.regen seed)) := by
    unfold resume_run
    rw [hsessA, if_neg hsid, hseedA, hpsA, hridA, hsugA]
  have hReq := run_single_eq ctx B c seed mt sid
    (QuestionBudget.init (some (fresh_run ctx A c seed mt sid mq).run.max_questions) bu)
    (some ⟨stPre.conversation, stPre.turns,
      trPre ++ [if p % 2 = 1 then "UserProxy" else "Counterparty"],
      stPre.latest_outcome, stPre.round_user_turn_index, p, ctx.regen seed⟩)
    (some ctx.fresh_run_id) (some (ctx.regen seed))
  simp only [] at hReq
  rw [hcs1] at hReq
  rw [show (⟨stPre.conversation, stPre.turns, stPre.latest_outcome,
    stPre.round_user_turn_index⟩ : EngineState) = stPre from rfl] at hReq
  simp only [runIndices] at hReq
  refine ⟨hstatusA, hpsA, ?_, ?_, ?_, ?_⟩
  · -- (2) prefix and index continuation
    obtain ⟨front, tail, hout, hfront, hidx, hsugg⟩ := go_turns_shape c B (ctx.regen seed)
      (effMaxTurns mt + 1 - p) p stPre
      (trPre ++ [if p % 2 = 1 then "UserProxy" else "Counterparty"])
      (QuestionBudget.init
        (some (fresh_run ctx A c seed mt sid mq).run.max_questions) bu)
    refine ⟨tail, ?_, hidx, hsugg⟩
    have hturns : (resume_run ctx B c (fresh_run ctx A c seed mt sid mq).run
        (fresh_run ctx A c seed mt sid mq).trace_bundle mt bu).run.turns = front ++ tail := by
      rw [hres, hReq.1]
      exact hout
    rcases hfront with hfront | ⟨j, o, hj, hfront⟩
    · exact Or.inl (by rw [hturns, hfront])
    · exact Or.inr ⟨j, o, hj, by rw [hturns, hfront]⟩
  · -- (3) budget used count
    intro hbu
    simp only [QuestionBudget.init]
    omega
  · -- (4) captured suggestions, not regenerated
    rw [hres, hReq.2.2.2.2.2]
  · -- (5) equivalence with the unpaused continuation
    intro hbud
    rw [hbud] at hReq
    have hpreB : go c B (ctx.regen seed) (List.range' 1 (p - 1)) initState []
        (QuestionBudget.init mq 0) = .ended stPre trPre bPre := by
      have h := go_congr c B A (ctx.regen seed) (List.range' 1 (p - 1)) initState []
        (QuestionBudget.init mq 0) (fun i hi => hagree i (by
          have := List.mem_range'_1.mp hi
          omega))
      rw [h]
      exact hpre
    have hgoB : go c B (chooseSuggestions ctx seed none) (runIndices 1 (effMaxTurns mt))
        initState [] (QuestionBudget.init mq 0)
        = shiftTraces trPre
            (go c B (ctx.regen seed) (List.range' p (effMaxTurns mt + 1 - p)) stPre []
              bPre) := by
      rw [hcs0, hrange1, hsplit, go_append, hpreB]
      exact go_traces c B (ctx.regen seed) (List.range' p (effMaxTurns mt + 1 - p))
        stPre trPre bPre
    have hgoR : go c B (ctx.regen seed) (List.range' p (effMaxTurns mt + 1 - p)) stPre
        (trPre ++ [if p % 2 = 1 then "UserProxy" else "Counterparty"]) bPre
        = shiftTraces (trPre ++ [if p % 2 = 1 then "UserProxy" else "Counterparty"])
            (go c B (ctx.regen seed) (List.range' p (effMaxTurns mt + 1 - p)) stPre []
              bPre) :=
      go_traces c B (ctx.regen seed) (List.range' p (effMaxTurns mt + 1 - p)) stPre _ bPre
    have hBeq := run_single_eq ctx B c seed mt sid (QuestionBudget.init mq 0) none none none
    simp only [] at hBeq
    rw [hgoB] at hBeq
    rw [hgoR] at hReq
    have hfrB : fresh_run ctx B c seed mt sid mq
        = run_single ctx B c seed mt sid (QuestionBudget.init mq 0) none none none := rfl
    unfold runBehavior
    rw [hres, hfrB, hbud, hReq.1, hReq.2.1, hReq.2.2.1, hReq.2.2.2.1,
      hBeq.1, hBeq.2.1, hBeq.2.2.1, hBeq.2.2.2.1,
      (shiftTraces_proj _ _).1, (shiftTraces_proj _ _).2.1,
      (shiftTraces_proj _ _).1, (shiftTraces_proj _ _).2.1]

/-- Witness for C3 (amended): the always-asking script against the sample
case pauses on turn 1, and resuming the paused run keeps the captured
(empty) suggestion list instead of regenerating one. -/
theorem C3_resume_amended_witness :
    (fresh_run sampleCtx askScript sampleCase 0 4 "s" (some 1)).run.status = .PAUSED
    ∧ (resume_run sampleCtx askScript sampleCase
          (fresh_run sampleCtx askScript sampleCase 0 4 "s" (some 1)).run
          (fresh_run sampleCtx askScript sampleCase 0 4 "s" (some 1)).trace_bundle
          4 0).trace_bundle.strategy_suggestions = sampleCtx.regen 0 := by
  have h := C3_resume_amended sampleCtx askScript askScript sampleCase 0 4 "s" (some 1) 1
    initState [] (QuestionBudget.init (some 1) 0) 0
    (by decide) (by decide) rfl (by decide) (by decide) (by decide)
    (fun i _ => rfl) (by decide)
  exact ⟨h.1, h.2.2.2.2.1⟩

end Negotiator
